import Mathlib

/-!
Verification development for the avocado-mini-server build-orchestration
subsystem.  The definitions below are shallow embeddings of the TypeScript
sources:

* `src/modules/build-tasks/build-tasks.service.ts` (task record store, queue
  admission, cancel/retry/updateStatus/updateProgress/cleanup),
* `src/modules/build-tasks/processors/build.processor.ts` and
  `src/modules/build-tasks/services/build.service.ts` (progress milestones),
* `src/modules/webhooks/webhooks.service.ts` (signature verification and the
  build-trigger decision),
* `src/common/services/git-operation.service.ts` (repository branch listing).

Timestamps are modelled as natural numbers (milliseconds since epoch, the
value of `Date.getTime()`), and `Math.floor((end - start) / 1000)` as integer
floor division (`Int.fdiv`).  External effects (database lookups, the Bull
queue client, `simple-git`, `fs`, HMAC) are modelled as explicit state or as
oracle parameters, and the order of externally visible effects is recorded in
an action trace where a claim is about ordering.
-/

set_option maxRecDepth 4000

namespace Avocado

/-- Task status, prisma enum `TaskStatus`. -/
inductive TaskStatus
  | PENDING
  | RUNNING
  | SUCCESS
  | FAILED
  | CANCELLED
deriving DecidableEq, Repr

/-- Build type, prisma enum `BuildType`. -/
inductive BuildType
  | UPLOAD
  | PREVIEW
deriving DecidableEq, Repr

/-- The build-task record (prisma model `BuildTask`), the fields touched by
`BuildTasksService`.  `duration` is an `Int` because the TypeScript code
computes `Math.floor((endTime - startTime) / 1000)`. -/
structure BuildTask where
  id : Nat
  appId : Nat
  userId : Nat
  type : BuildType
  status : TaskStatus
  priority : Nat
  branch : String
  commitId : Option String
  version : String
  description : Option String
  operator : String
  progress : Nat
  retryCount : Nat
  createTime : Nat
  startTime : Option Nat
  endTime : Option Nat
  duration : Option Int
  errorMessage : Option String
  qrcodeUrl : Option String
  packageSize : Option String
  buildLog : String
deriving DecidableEq, Repr

/-- A job on the Bull `build` queue; `BuildJobData.taskId` is the only field
the store operations inspect (`cancel` matches jobs by `data.taskId`). -/
structure BuildJob where
  taskId : Nat
deriving DecidableEq, Repr

/-- The shared mutable state: the `BuildTask` table plus the Bull queue's
waiting jobs. -/
structure StoreState where
  tasks : List BuildTask
  queue : List BuildJob
deriving DecidableEq, Repr

/-- `prisma.buildTask.findUnique / findFirst` by id. -/
def findTask (ts : List BuildTask) (id : Nat) : Option BuildTask :=
  ts.find? (fun t => t.id == id)

/-- `prisma.buildTask.update where id`: rewrite the row with the matching id,
leave every other row alone. -/
def updateTask (ts : List BuildTask) (id : Nat) (f : BuildTask → BuildTask) :
    List BuildTask :=
  ts.map (fun t => if t.id == id then f t else t)

/-- The payload of `BuildTasksService.create`
(`CreateBuildTaskDto`, `src/modules/build-tasks/dto/create-build-task.dto.ts`). -/
structure CreateBuildTaskDto where
  appId : Nat
  type : BuildType
  priority : Nat
  branch : String
  commitId : Option String
  version : String
  description : Option String
  operator : String
deriving DecidableEq, Repr

/-- A task is "active" when its status is PENDING or RUNNING — the statuses
`create` checks in its duplicate query (`status: { in: [PENDING, RUNNING] }`). -/
def isActive (t : BuildTask) : Bool :=
  t.status == TaskStatus.PENDING || t.status == TaskStatus.RUNNING

/-- `create`'s duplicate query: does a PENDING/RUNNING task for the same
(appId, type) pair exist? -/
def hasActiveDuplicate (ts : List BuildTask) (a : Nat) (ty : BuildType) : Bool :=
  ts.any (fun t => t.appId == a && t.type == ty && isActive t)

/-- `const maxQueueSize = 200` in `BuildTasksService.create`. -/
def maxQueueSize : Nat := 200

/-- Rejections of `BuildTasksService.create`, in source order: the miniprogram
lookup, the permission check, the duplicate-active check, the queue-size check.
`IdConflict` models the database primary-key constraint on the (uuid) task id. -/
inductive CreateError
  | AppNotFound
  | Unauthorized
  | DuplicateActiveTask
  | QueueFull
  | IdConflict
deriving DecidableEq, Repr

/-- `BuildTasksService.create`.  The miniprogram lookup and the permission
check are database/user facts outside this state, passed as the booleans
`appExists` and `authorized`; `newId` is the generated uuid and `now` the
clock value of `new Date()`. -/
def createTask (s : StoreState) (appExists authorized : Bool) (userId : Nat)
    (dto : CreateBuildTaskDto) (newId now : Nat) : Except CreateError StoreState :=
  if !appExists then .error .AppNotFound
  else if !authorized then .error .Unauthorized
  else if hasActiveDuplicate s.tasks dto.appId dto.type then .error .DuplicateActiveTask
  else if maxQueueSize ≤ s.queue.length then .error .QueueFull
  else if s.tasks.any (fun t => t.id == newId) then .error .IdConflict
  else
    .ok { tasks := s.tasks ++ [{
            id := newId
            appId := dto.appId
            userId := userId
            type := dto.type
            status := TaskStatus.PENDING
            priority := dto.priority
            branch := dto.branch
            commitId := dto.commitId
            version := dto.version
            description := dto.description
            operator := dto.operator
            progress := 0
            retryCount := 0
            createTime := now
            startTime := none
            endTime := none
            duration := none
            errorMessage := none
            qrcodeUrl := none
            packageSize := none
            buildLog := "" }]
          queue := s.queue ++ [⟨newId⟩] }

/-- The optional `data` argument of `BuildTasksService.updateStatus`; at its
call sites the processor passes `errorMessage` (on FAILED) or
`qrcodeUrl`/`packageSize` (on SUCCESS). -/
structure UpdateStatusData where
  errorMessage : Option String
  qrcodeUrl : Option String
  packageSize : Option String
deriving DecidableEq, Repr

/-- The empty `data` argument. -/
def noUpdateData : UpdateStatusData := ⟨none, none, none⟩

/-- The row rewrite performed by `BuildTasksService.updateStatus`: set the
status; on RUNNING also set `startTime` (the call sites never supply one); on
SUCCESS/FAILED set `endTime` and, when the stored `startTime` is present,
`duration = Math.floor((endTime - startTime) / 1000)`; finally merge the
caller-supplied fields. -/
def applyUpdateStatus (t : BuildTask) (status : TaskStatus) (now : Nat)
    (d : UpdateStatusData) : BuildTask :=
  { t with
    status := status
    startTime := if status = TaskStatus.RUNNING then some now else t.startTime
    endTime := if status = TaskStatus.SUCCESS ∨ status = TaskStatus.FAILED then
        some now
      else t.endTime
    duration := if status = TaskStatus.SUCCESS ∨ status = TaskStatus.FAILED then
        match t.startTime with
        | some st => some (((now : Int) - (st : Int)).fdiv 1000)
        | none => t.duration
      else t.duration
    errorMessage := match d.errorMessage with
      | some m => some m
      | none => t.errorMessage
    qrcodeUrl := match d.qrcodeUrl with
      | some q => some q
      | none => t.qrcodeUrl
    packageSize := match d.packageSize with
      | some p => some p
      | none => t.packageSize }

/-- Rejections of `cancel` and `retry` (`NotFoundException` from `findOne`,
and the two `BadRequestException` guards). -/
inductive CtrlError
  | TaskNotFound
  | InvalidState
  | RetryLimit
deriving DecidableEq, Repr

/-- `BuildTasksService.cancel`: reject unless the task is PENDING or RUNNING;
otherwise remove the first queued job whose `data.taskId` matches and set the
record to CANCELLED via `updateStatus` (which touches no other field for this
status). -/
def cancelTask (s : StoreState) (id : Nat) : Except CtrlError StoreState :=
  match findTask s.tasks id with
  | none => .error .TaskNotFound
  | some t =>
    if t.status ≠ TaskStatus.PENDING ∧ t.status ≠ TaskStatus.RUNNING then
      .error .InvalidState
    else
      .ok { tasks := updateTask s.tasks id
              (fun u => applyUpdateStatus u TaskStatus.CANCELLED 0 noUpdateData),
            queue := s.queue.eraseP (fun j => j.taskId == id) }

/-- `BuildTasksService.retry`: only a FAILED task with `retryCount < 3` may be
retried; the same row is rewritten to PENDING with `retryCount + 1`,
`progress 0` and cleared `startTime`/`endTime`/`duration`/`errorMessage`, and
a new job for the same task id is queued. -/
def retryTask (s : StoreState) (id : Nat) : Except CtrlError StoreState :=
  match findTask s.tasks id with
  | none => .error .TaskNotFound
  | some t =>
    if t.status ≠ TaskStatus.FAILED then .error .InvalidState
    else if 3 ≤ t.retryCount then .error .RetryLimit
    else
      .ok { tasks := updateTask s.tasks id
              (fun u => { u with
                status := TaskStatus.PENDING
                retryCount := t.retryCount + 1
                progress := 0
                startTime := none
                endTime := none
                duration := none
                errorMessage := none }),
            queue := s.queue ++ [⟨id⟩] }

/-- `Math.min(100, Math.max(0, progress))` from `updateProgress`. -/
def clampProgress (p : Int) : Nat := (min 100 (max 0 p)).toNat

/-- `BuildTasksService.updateProgress`. -/
def updateProgressTask (s : StoreState) (id : Nat) (p : Int) : StoreState :=
  { s with tasks := updateTask s.tasks id (fun t => { t with progress := clampProgress p }) }

/-- `BuildTasksService.appendLog`. -/
def appendLogTask (s : StoreState) (id : Nat) (line : String) : StoreState :=
  { s with tasks := updateTask s.tasks id
              (fun t => { t with buildLog := t.buildLog ++ line ++ "\n" }) }

/-- A task is terminal when SUCCESS, FAILED or CANCELLED — the statuses swept
by `cleanupExpiredTasks`. -/
def isTerminal (t : BuildTask) : Bool :=
  t.status == TaskStatus.SUCCESS || t.status == TaskStatus.FAILED ||
    t.status == TaskStatus.CANCELLED

/-- `BuildTasksService.cleanupExpiredTasks`: delete terminal tasks created
before the cutoff (30 days before now). -/
def cleanupExpired (s : StoreState) (cutoff : Nat) : StoreState :=
  { s with tasks := s.tasks.filter
              (fun t => !(decide (t.createTime < cutoff) && isTerminal t)) }

/-- `BuildProcessor.handleBuildMiniprogram`, start of a delivery: the worker
holds a dequeued job, removes it from the waiting list and marks the task
RUNNING via `updateStatus(taskId, RUNNING)`. -/
def procStart (s : StoreState) (id now : Nat) : Option StoreState :=
  if s.queue.any (fun j => j.taskId == id) then
    some { tasks := updateTask s.tasks id
             (fun u => applyUpdateStatus u TaskStatus.RUNNING now noUpdateData),
           queue := s.queue.eraseP (fun j => j.taskId == id) }
  else none

/-- End of a delivery in `BuildProcessor.handleBuildMiniprogram`:
`updateStatus(taskId, SUCCESS, {qrcodeUrl, packageSize})` on success,
`updateStatus(taskId, FAILED, {errorMessage})` on error.  The worker issues
this only for the task it dequeued and marked RUNNING; a concurrent `cancel`
may have turned that task CANCELLED in the meantime (the pipeline is not
interrupted), hence the RUNNING-or-CANCELLED guard. -/
def procFinish (s : StoreState) (id now : Nat) (ok : Bool) (d : UpdateStatusData) :
    Option StoreState :=
  match findTask s.tasks id with
  | some t =>
    if t.status = TaskStatus.RUNNING ∨ t.status = TaskStatus.CANCELLED then
      some { s with tasks := updateTask s.tasks id
                      (fun u => applyUpdateStatus u
                        (if ok then TaskStatus.SUCCESS else TaskStatus.FAILED) now d) }
    else none
  | none => none

/-- Bull's queue-level delivery retry: `create` enqueues every job with
`attempts: 3` and exponential backoff, and the processor rethrows on failure,
so Bull re-invokes `handleBuildMiniprogram` for a job whose previous attempt
threw; that attempt's catch block had already marked the task FAILED.  The
re-run performs `updateStatus(taskId, RUNNING)` on that FAILED record: it
sets the status and a fresh `startTime`, while the previous attempt's
`endTime`/`duration`/`errorMessage` stay in place (`updateStatus` clears
nothing).  The model allows a re-delivery for any FAILED task,
over-approximating Bull's bounded attempt count — sound for the preservation
theorems, and the counterexample runs use only the first re-delivery, which
`attempts: 3` permits. -/
def redeliverTask (s : StoreState) (id now : Nat) : Option StoreState :=
  match findTask s.tasks id with
  | some t =>
    if t.status = TaskStatus.FAILED then
      some { s with
               tasks := updateTask s.tasks id
                 (fun u => applyUpdateStatus u TaskStatus.RUNNING now noUpdateData) }
    else none
  | none => none

/-- The operations the program performs on the task record store and queue,
including Bull's automatic re-delivery of a failed attempt (`redeliver`),
which the program itself configures via `attempts: 3` in `create`. -/
inductive Op
  | create (appExists authorized : Bool) (userId : Nat) (dto : CreateBuildTaskDto)
      (newId now : Nat)
  | start (id now : Nat)
  | finishOk (id now : Nat) (qrcodeUrl packageSize : Option String)
  | finishFail (id now : Nat) (msg : String)
  | redeliver (id now : Nat)
  | setProgress (id : Nat) (p : Int)
  | appendLine (id : Nat) (line : String)
  | cancel (id : Nat)
  | retry (id : Nat)
  | cleanup (cutoff : Nat)
deriving DecidableEq, Repr

/-- Whether an operation is the user-facing retry. -/
def Op.isRetry : Op → Bool
  | .retry _ => true
  | _ => false

/-- Whether an operation is Bull's queue-level re-delivery of a failed
attempt. -/
def Op.isRedeliver : Op → Bool
  | .redeliver _ _ => true
  | _ => false

/-- One atomic operation on the store; a rejected operation (thrown
`BadRequestException`/`NotFoundException`, or a worker guard that does not
fire) leaves the state unchanged. -/
def applyOp (s : StoreState) (op : Op) : StoreState :=
  match op with
  | .create ae au u dto nid now =>
    match createTask s ae au u dto nid now with
    | .ok s' => s'
    | .error _ => s
  | .start id now =>
    match procStart s id now with
    | some s' => s'
    | none => s
  | .finishOk id now q p =>
    match procFinish s id now true ⟨none, q, p⟩ with
    | some s' => s'
    | none => s
  | .finishFail id now m =>
    match procFinish s id now false ⟨some m, none, none⟩ with
    | some s' => s'
    | none => s
  | .redeliver id now =>
    match redeliverTask s id now with
    | some s' => s'
    | none => s
  | .setProgress id p => updateProgressTask s id p
  | .appendLine id line => appendLogTask s id line
  | .cancel id =>
    match cancelTask s id with
    | .ok s' => s'
    | .error _ => s
  | .retry id =>
    match retryTask s id with
    | .ok s' => s'
    | .error _ => s
  | .cleanup cutoff => cleanupExpired s cutoff

/-- The empty store at system start. -/
def initState : StoreState := ⟨[], []⟩

/-- States reachable from the empty store by store operations. -/
inductive Reachable : StoreState → Prop
  | init : Reachable initState
  | step {s : StoreState} (h : Reachable s) (op : Op) : Reachable (applyOp s op)

/-- The predicate counted by the duplicate-admission bound: a PENDING/RUNNING
task of the given (appId, type) pair. -/
def activePred (a : Nat) (ty : BuildType) (t : BuildTask) : Bool :=
  t.appId == a && t.type == ty && isActive t

/-- Number of PENDING/RUNNING tasks for a given (appId, type) pair. -/
def activeCount (ts : List BuildTask) (a : Nat) (ty : BuildType) : Nat :=
  ts.countP (activePred a ty)

/-- The admission bound of spec §4.4: at most one active task per
(appId, type) pair. -/
def BoundOK (s : StoreState) : Prop :=
  ∀ a ty, activeCount s.tasks a ty ≤ 1

/-- Per-task duration bookkeeping that survives Bull's delivery retries:
whenever a task's status is SUCCESS or FAILED and both timestamps are
present, `duration` is the floored second difference of the timestamps.
(A re-delivered task is RUNNING with the failed attempt's `endTime` and
`duration` still in place, so no stronger per-status statement holds.) -/
def TerminalDurOK (t : BuildTask) : Prop :=
  (t.status = TaskStatus.SUCCESS ∨ t.status = TaskStatus.FAILED) →
    ∀ st en, t.startTime = some st → t.endTime = some en →
      t.duration = some (((en : Int) - (st : Int)).fdiv 1000)

/-- Structural invariant of the store, maintained by every operation:
task ids are unique (uuid primary key), queued job ids are unique, every
queued job belongs to a PENDING task, and every task satisfies
`TerminalDurOK`. -/
structure StoreInv (s : StoreState) : Prop where
  uniq : (s.tasks.map (fun t => t.id)).Nodup
  jobsUniq : (s.queue.map (fun j => j.taskId)).Nodup
  jobTask : ∀ j ∈ s.queue, ∃ t, t ∈ s.tasks ∧ t.id = j.taskId ∧
      t.status = TaskStatus.PENDING
  terminalDur : ∀ t ∈ s.tasks, TerminalDurOK t

/-! ### Helper lemmas about the store primitives -/

theorem applyUpdateStatus_id (t : BuildTask) (st : TaskStatus) (now : Nat)
    (d : UpdateStatusData) : (applyUpdateStatus t st now d).id = t.id := rfl

theorem applyUpdateStatus_appId (t : BuildTask) (st : TaskStatus) (now : Nat)
    (d : UpdateStatusData) : (applyUpdateStatus t st now d).appId = t.appId := rfl

theorem applyUpdateStatus_type (t : BuildTask) (st : TaskStatus) (now : Nat)
    (d : UpdateStatusData) : (applyUpdateStatus t st now d).type = t.type := rfl

theorem applyUpdateStatus_status (t : BuildTask) (st : TaskStatus) (now : Nat)
    (d : UpdateStatusData) : (applyUpdateStatus t st now d).status = st := rfl

theorem mem_of_updateTask {u : BuildTask} {ts : List BuildTask} {id : Nat}
    {f : BuildTask → BuildTask} (h : u ∈ updateTask ts id f) :
    ∃ t, t ∈ ts ∧ u = if t.id == id then f t else t := by
  obtain ⟨t, ht, he⟩ := List.mem_map.mp h
  exact ⟨t, ht, he.symm⟩

theorem mem_updateTask_of_ne {ts : List BuildTask} {id : Nat}
    {f : BuildTask → BuildTask} {t : BuildTask} (ht : t ∈ ts) (hne : t.id ≠ id) :
    t ∈ updateTask ts id f :=
  List.mem_map.mpr ⟨t, ht, by simp [hne]⟩

theorem mem_updateTask_image {ts : List BuildTask} {id : Nat}
    {f : BuildTask → BuildTask} {t : BuildTask} (ht : t ∈ ts) (hid : t.id = id) :
    f t ∈ updateTask ts id f :=
  List.mem_map.mpr ⟨t, ht, by simp [hid]⟩

theorem updateTask_map_field {α : Type} (g : BuildTask → α) (ts : List BuildTask)
    (id : Nat) (f : BuildTask → BuildTask) (hf : ∀ t, g (f t) = g t) :
    (updateTask ts id f).map g = ts.map g := by
  unfold updateTask
  rw [List.map_map]
  refine List.map_congr_left ?_
  intro t ht
  simp only [Function.comp_apply]
  split
  · exact hf t
  · rfl

theorem countP_updateTask_le (ts : List BuildTask) (id : Nat)
    (f : BuildTask → BuildTask) (p : BuildTask → Bool)
    (h : ∀ t ∈ ts, t.id = id → p (f t) = true → p t = true) :
    (updateTask ts id f).countP p ≤ ts.countP p := by
  induction ts with
  | nil => simp [updateTask]
  | cons a l ih =>
    have hl : (updateTask l id f).countP p ≤ l.countP p :=
      ih (fun t ht h1 h2 => h t (List.mem_cons_of_mem a ht) h1 h2)
    show ((if a.id == id then f a else a) :: updateTask l id f).countP p ≤
      (a :: l).countP p
    rw [List.countP_cons, List.countP_cons]
    by_cases ha : a.id = id
    · simp only [ha, beq_self_eq_true, if_true]
      by_cases hpf : p (f a)
      · rw [if_pos hpf, if_pos (h a (List.mem_cons_self a l) ha hpf)]
        omega
      · rw [if_neg hpf]
        omega
    · simp only [beq_eq_false_iff_ne, ne_eq, ha, not_false_eq_true, if_neg,
        beq_iff_eq]
      omega

theorem countP_updateTask_eq (ts : List BuildTask) (id : Nat)
    (f : BuildTask → BuildTask) (p : BuildTask → Bool)
    (h : ∀ t ∈ ts, t.id = id → p (f t) = p t) :
    (updateTask ts id f).countP p = ts.countP p := by
  induction ts with
  | nil => simp [updateTask]
  | cons a l ih =>
    have hl : (updateTask l id f).countP p = l.countP p :=
      ih (fun t ht h1 => h t (List.mem_cons_of_mem a ht) h1)
    show ((if a.id == id then f a else a) :: updateTask l id f).countP p =
      (a :: l).countP p
    rw [List.countP_cons, List.countP_cons]
    by_cases ha : a.id = id
    · simp only [ha, beq_self_eq_true, if_true]
      rw [h a (List.mem_cons_self a l) ha, hl]
    · simp only [beq_eq_false_iff_ne, ne_eq, ha, not_false_eq_true, if_neg,
        beq_iff_eq]
      omega

theorem findTask_mem {ts : List BuildTask} {id : Nat} {t : BuildTask}
    (h : findTask ts id = some t) : t ∈ ts ∧ t.id = id := by
  unfold findTask at h
  refine ⟨List.mem_of_find?_eq_some h, ?_⟩
  have hp := List.find?_some h
  simpa using hp

theorem findTask_updateTask (ts : List BuildTask) (id : Nat)
    (f : BuildTask → BuildTask) (hf : ∀ t, (f t).id = t.id) :
    findTask (updateTask ts id f) id = (findTask ts id).map f := by
  unfold findTask updateTask
  induction ts with
  | nil => rfl
  | cons a l ih =>
    simp only [List.map_cons]
    by_cases ha : (a.id == id) = true
    · have hfa : ((f a).id == id) = true := by simpa [hf] using ha
      rw [if_pos ha, List.find?_cons, List.find?_cons, hfa, ha]
      rfl
    · have ha' : (a.id == id) = false := by simpa using ha
      rw [if_neg ha, List.find?_cons, List.find?_cons, ha']
      exact ih

theorem task_eq_of_id {ts : List BuildTask} (hn : (ts.map (fun t => t.id)).Nodup)
    {t₁ t₂ : BuildTask} (h1 : t₁ ∈ ts) (h2 : t₂ ∈ ts) (he : t₁.id = t₂.id) :
    t₁ = t₂ :=
  List.inj_on_of_nodup_map hn h1 h2 he

theorem eraseP_taskId_surviving {l : List BuildJob} {id : Nat}
    (h : (l.map (fun j => j.taskId)).Nodup) :
    ∀ j ∈ l.eraseP (fun j => j.taskId == id), j.taskId ≠ id := by
  induction l with
  | nil => simp
  | cons a l ih =>
    simp only [List.map_cons, List.nodup_cons] at h
    by_cases ha : a.taskId = id
    · rw [List.eraseP_cons_of_pos (by simp [ha])]
      intro j hj hji
      exact h.1 (by
        rw [ha, ← hji]
        exact List.mem_map.mpr ⟨j, hj, rfl⟩)
    · rw [List.eraseP_cons_of_neg (by simp [ha])]
      intro j hj
      rcases List.mem_cons.mp hj with rfl | hj'
      · exact ha
      · exact ih h.2 j hj'

/-! ### Per-task invariant lemmas -/

theorem terminalDurOK_of_nonterminal {t : BuildTask}
    (h1 : t.status ≠ TaskStatus.SUCCESS) (h2 : t.status ≠ TaskStatus.FAILED) :
    TerminalDurOK t := by
  intro hst
  rcases hst with h | h
  · exact absurd h h1
  · exact absurd h h2

theorem terminalDurOK_terminal_update (u : BuildTask) (stt : TaskStatus)
    (now : Nat) (d : UpdateStatusData)
    (hst : stt = TaskStatus.SUCCESS ∨ stt = TaskStatus.FAILED) :
    TerminalDurOK (applyUpdateStatus u stt now d) := by
  rcases hst with rfl | rfl <;>
    (intro _; unfold applyUpdateStatus; cases hs : u.startTime <;> simp [hs])

theorem terminalDurOK_benign {u : BuildTask} (f : BuildTask → BuildTask)
    (hstatus : ∀ t, (f t).status = t.status)
    (hstart : ∀ t, (f t).startTime = t.startTime)
    (hend : ∀ t, (f t).endTime = t.endTime)
    (hdur : ∀ t, (f t).duration = t.duration)
    (h : TerminalDurOK u) : TerminalDurOK (f u) := by
  unfold TerminalDurOK at h ⊢
  rw [hstatus u, hstart u, hend u, hdur u]
  exact h

/-! ### Invariant preservation, operation by operation -/

theorem storeInv_createTask {s s' : StoreState} {ae au : Bool} {u : Nat}
    {dto : CreateBuildTaskDto} {nid now : Nat}
    (hok : createTask s ae au u dto nid now = .ok s') (h : StoreInv s) :
    StoreInv s' := by
  unfold createTask at hok
  split at hok; · simp at hok
  split at hok; · simp at hok
  split at hok; · simp at hok
  split at hok; · simp at hok
  split at hok
  · simp at hok
  case isFalse hid =>
    have hfresh : ∀ t ∈ s.tasks, t.id ≠ nid := by
      intro t ht he
      exact hid (List.any_eq_true.mpr ⟨t, ht, by simp [he]⟩)
    simp only [Except.ok.injEq] at hok
    subst hok
    constructor
    · rw [List.map_append]
      refine List.nodup_append.mpr ⟨h.uniq, by simp, ?_⟩
      intro x hx hx'
      obtain ⟨t, ht, rfl⟩ := List.mem_map.mp hx
      simp only [List.map_cons, List.map_nil, List.mem_singleton] at hx'
      exact hfresh t ht hx'
    · rw [List.map_append]
      refine List.nodup_append.mpr ⟨h.jobsUniq, by simp, ?_⟩
      intro x hx hx'
      obtain ⟨j, hj, rfl⟩ := List.mem_map.mp hx
      simp only [List.map_cons, List.map_nil, List.mem_singleton] at hx'
      obtain ⟨t, ht, hti, _⟩ := h.jobTask j hj
      exact hfresh t ht (hti.trans hx')
    · intro j hj
      rcases List.mem_append.mp hj with hj' | hj'
      · obtain ⟨t, ht, hti, hts⟩ := h.jobTask j hj'
        exact ⟨t, List.mem_append_left _ ht, hti, hts⟩
      · simp only [List.mem_singleton] at hj'
        subst hj'
        exact ⟨_, List.mem_append_right _ (List.mem_singleton.mpr rfl), rfl, rfl⟩
    · intro t ht
      rcases List.mem_append.mp ht with ht' | ht'
      · exact h.terminalDur t ht'
      · simp only [List.mem_singleton] at ht'
        subst ht'
        exact terminalDurOK_of_nonterminal (by simp) (by simp)

theorem storeInv_procStart {s s' : StoreState} {id now : Nat}
    (hok : procStart s id now = some s') (h : StoreInv s) : StoreInv s' := by
  unfold procStart at hok
  split at hok
  case isFalse => simp at hok
  case isTrue hq =>
    simp only [Option.some.injEq] at hok
    subst hok
    constructor
    · rw [updateTask_map_field _ _ _ _ (fun t => applyUpdateStatus_id t _ _ _)]
      exact h.uniq
    · exact (List.Sublist.map _ (List.eraseP_sublist _)).nodup h.jobsUniq
    · intro j hj
      have hjne : j.taskId ≠ id := eraseP_taskId_surviving h.jobsUniq j hj
      obtain ⟨t, ht, hti, hts⟩ := h.jobTask j (List.mem_of_mem_eraseP hj)
      have htne : t.id ≠ id := by rw [hti]; exact hjne
      exact ⟨t, mem_updateTask_of_ne ht htne, hti, hts⟩
    · intro t' ht'
      obtain ⟨t, ht, rfl⟩ := mem_of_updateTask ht'
      split
      · exact terminalDurOK_of_nonterminal (by simp [applyUpdateStatus_status])
          (by simp [applyUpdateStatus_status])
      · exact h.terminalDur t ht

theorem nodup_updateTask (ts : List BuildTask) (id : Nat) (f : BuildTask → BuildTask)
    (hf : ∀ t, (f t).id = t.id) (h : (ts.map (fun t => t.id)).Nodup) :
    ((updateTask ts id f).map (fun t => t.id)).Nodup := by
  rw [updateTask_map_field _ _ _ _ hf]
  exact h

theorem storeInv_procFinish {s s' : StoreState} {id now : Nat} {ok : Bool}
    {d : UpdateStatusData} (hok : procFinish s id now ok d = some s')
    (h : StoreInv s) : StoreInv s' := by
  unfold procFinish at hok
  cases hf : findTask s.tasks id with
  | none => rw [hf] at hok; simp at hok
  | some t =>
    rw [hf] at hok
    simp only [] at hok
    by_cases hst : t.status = TaskStatus.RUNNING ∨ t.status = TaskStatus.CANCELLED
    case neg => rw [if_neg hst] at hok; simp at hok
    case pos =>
      rw [if_pos hst] at hok
      simp only [Option.some.injEq] at hok
      subst hok
      obtain ⟨htmem, htid⟩ := findTask_mem hf
      constructor
      · rw [updateTask_map_field _ _ _ _ (fun t => applyUpdateStatus_id t _ _ _)]
        exact h.uniq
      · exact h.jobsUniq
      · intro j hj
        obtain ⟨u, hu, hui, hus⟩ := h.jobTask j hj
        have hne : u.id ≠ id := by
          intro he
          have : u = t := task_eq_of_id h.uniq hu htmem (he.trans htid.symm)
          subst this
          rcases hst with hst | hst <;> rw [hus] at hst <;> cases hst
        exact ⟨u, mem_updateTask_of_ne hu hne, hui, hus⟩
      · intro t' ht'
        obtain ⟨u, hu, rfl⟩ := mem_of_updateTask ht'
        split
        · exact terminalDurOK_terminal_update u _ now d (by cases ok <;> simp)
        · exact h.terminalDur u hu

theorem storeInv_redeliver {s s' : StoreState} {id now : Nat}
    (hok : redeliverTask s id now = some s') (h : StoreInv s) : StoreInv s' := by
  unfold redeliverTask at hok
  cases hf : findTask s.tasks id with
  | none => rw [hf] at hok; simp at hok
  | some t =>
    rw [hf] at hok
    simp only [] at hok
    by_cases hst : t.status = TaskStatus.FAILED
    case neg => rw [if_neg hst] at hok; simp at hok
    case pos =>
      rw [if_pos hst] at hok
      simp only [Option.some.injEq] at hok
      subst hok
      obtain ⟨htmem, htid⟩ := findTask_mem hf
      constructor
      · rw [updateTask_map_field _ _ _ _ (fun t => applyUpdateStatus_id t _ _ _)]
        exact h.uniq
      · exact h.jobsUniq
      · intro j hj
        obtain ⟨u, hu, hui, hus⟩ := h.jobTask j hj
        have hne : u.id ≠ id := by
          intro he
          have : u = t := task_eq_of_id h.uniq hu htmem (he.trans htid.symm)
          subst this
          rw [hus] at hst
          cases hst
        exact ⟨u, mem_updateTask_of_ne hu hne, hui, hus⟩
      · intro t' ht'
        obtain ⟨u, hu, rfl⟩ := mem_of_updateTask ht'
        split
        · exact terminalDurOK_of_nonterminal (by simp [applyUpdateStatus_status])
            (by simp [applyUpdateStatus_status])
        · exact h.terminalDur u hu

theorem storeInv_cancelTask {s s' : StoreState} {id : Nat}
    (hok : cancelTask s id = .ok s') (h : StoreInv s) : StoreInv s' := by
  unfold cancelTask at hok
  cases hf : findTask s.tasks id with
  | none => rw [hf] at hok; simp at hok
  | some t =>
    rw [hf] at hok
    simp only [] at hok
    by_cases hg : t.status ≠ TaskStatus.PENDING ∧ t.status ≠ TaskStatus.RUNNING
    case pos => rw [if_pos hg] at hok; simp at hok
    case neg =>
      rw [if_neg hg] at hok
      simp only [Except.ok.injEq] at hok
      subst hok
      constructor
      · rw [updateTask_map_field _ _ _ _ (fun t => applyUpdateStatus_id t _ _ _)]
        exact h.uniq
      · exact (List.Sublist.map _ (List.eraseP_sublist _)).nodup h.jobsUniq
      · intro j hj
        have hjne : j.taskId ≠ id := eraseP_taskId_surviving h.jobsUniq j hj
        obtain ⟨u, hu, hui, hus⟩ := h.jobTask j (List.mem_of_mem_eraseP hj)
        have hune : u.id ≠ id := by rw [hui]; exact hjne
        exact ⟨u, mem_updateTask_of_ne hu hune, hui, hus⟩
      · intro t' ht'
        obtain ⟨u, hu, rfl⟩ := mem_of_updateTask ht'
        split
        · exact terminalDurOK_of_nonterminal (by simp [applyUpdateStatus_status])
            (by simp [applyUpdateStatus_status])
        · exact h.terminalDur u hu

theorem storeInv_retryTask {s s' : StoreState} {id : Nat}
    (hok : retryTask s id = .ok s') (h : StoreInv s) : StoreInv s' := by
  unfold retryTask at hok
  cases hf : findTask s.tasks id with
  | none => rw [hf] at hok; simp at hok
  | some t =>
    rw [hf] at hok
    simp only [] at hok
    by_cases hfail : t.status ≠ TaskStatus.FAILED
    case pos => rw [if_pos hfail] at hok; simp at hok
    case neg =>
      rw [if_neg hfail] at hok
      by_cases hcnt : 3 ≤ t.retryCount
      case pos => rw [if_pos hcnt] at hok; simp at hok
      case neg =>
        rw [if_neg hcnt] at hok
        have hfl : t.status = TaskStatus.FAILED := by
          by_cases hfl : t.status = TaskStatus.FAILED
          · exact hfl
          · exact absurd hfl hfail
        simp only [Except.ok.injEq] at hok
        subst hok
        obtain ⟨htmem, htid⟩ := findTask_mem hf
        have hnojob : ∀ j ∈ s.queue, j.taskId ≠ id := by
          intro j hj he
          obtain ⟨u, hu, hui, hus⟩ := h.jobTask j hj
          have : u = t := task_eq_of_id h.uniq hu htmem
            ((hui.trans he).trans htid.symm)
          subst this
          rw [hus] at hfl
          cases hfl
        constructor
        · exact nodup_updateTask _ _ _ (fun u => rfl) h.uniq
        · rw [List.map_append]
          refine List.nodup_append.mpr ⟨h.jobsUniq, by simp, ?_⟩
          intro x hx hx'
          obtain ⟨j, hj, rfl⟩ := List.mem_map.mp hx
          simp only [List.map_cons, List.map_nil, List.mem_singleton] at hx'
          exact hnojob j hj hx'
        · intro j hj
          rcases List.mem_append.mp hj with hj' | hj'
          · obtain ⟨u, hu, hui, hus⟩ := h.jobTask j hj'
            have hune : u.id ≠ id := by
              rw [hui]
              exact hnojob j hj'
            exact ⟨u, mem_updateTask_of_ne hu hune, hui, hus⟩
          · simp only [List.mem_singleton] at hj'
            subst hj'
            refine ⟨_, mem_updateTask_image htmem htid, htid, rfl⟩
        · intro t' ht'
          obtain ⟨u, hu, rfl⟩ := mem_of_updateTask ht'
          split
          · exact terminalDurOK_of_nonterminal (by simp) (by simp)
          · exact h.terminalDur u hu

theorem storeInv_cleanup (s : StoreState) (cutoff : Nat) (h : StoreInv s) :
    StoreInv (cleanupExpired s cutoff) := by
  constructor
  · exact (List.Sublist.map _ (List.filter_sublist _)).nodup h.uniq
  · exact h.jobsUniq
  · intro j hj
    obtain ⟨t, ht, hti, hts⟩ := h.jobTask j hj
    refine ⟨t, List.mem_filter.mpr ⟨ht, ?_⟩, hti, hts⟩
    simp [isTerminal, hts]
  · intro t ht
    exact h.terminalDur t (List.mem_filter.mp ht).1

theorem storeInv_benignUpdate (s : StoreState) (id : Nat)
    (f : BuildTask → BuildTask)
    (hid : ∀ t, (f t).id = t.id)
    (hstatus : ∀ t, (f t).status = t.status)
    (hstart : ∀ t, (f t).startTime = t.startTime)
    (hend : ∀ t, (f t).endTime = t.endTime)
    (hdur : ∀ t, (f t).duration = t.duration)
    (h : StoreInv s) : StoreInv { s with tasks := updateTask s.tasks id f } := by
  constructor
  · rw [updateTask_map_field _ _ _ _ hid]
    exact h.uniq
  · exact h.jobsUniq
  · intro j hj
    obtain ⟨t, ht, hti, hts⟩ := h.jobTask j hj
    by_cases he : t.id = id
    · exact ⟨f t, mem_updateTask_image ht he, (hid t).trans hti,
        (hstatus t).trans hts⟩
    · exact ⟨t, mem_updateTask_of_ne ht he, hti, hts⟩
  · intro t' ht'
    obtain ⟨t, ht, rfl⟩ := mem_of_updateTask ht'
    split
    · exact terminalDurOK_benign f hstatus hstart hend hdur (h.terminalDur t ht)
    · exact h.terminalDur t ht

/-- Every store operation preserves the structural invariant. -/
theorem storeInv_applyOp (s : StoreState) (op : Op) (h : StoreInv s) :
    StoreInv (applyOp s op) := by
  cases op with
  | create ae au u dto nid now =>
    simp only [applyOp]
    cases hc : createTask s ae au u dto nid now with
    | ok s' => exact storeInv_createTask hc h
    | error e => exact h
  | start id now =>
    simp only [applyOp]
    cases hc : procStart s id now with
    | some s' => exact storeInv_procStart hc h
    | none => exact h
  | finishOk id now q p =>
    simp only [applyOp]
    cases hc : procFinish s id now true ⟨none, q, p⟩ with
    | some s' => exact storeInv_procFinish hc h
    | none => exact h
  | finishFail id now m =>
    simp only [applyOp]
    cases hc : procFinish s id now false ⟨some m, none, none⟩ with
    | some s' => exact storeInv_procFinish hc h
    | none => exact h
  | redeliver id now =>
    simp only [applyOp]
    cases hc : redeliverTask s id now with
    | some s' => exact storeInv_redeliver hc h
    | none => exact h
  | setProgress id p =>
    exact storeInv_benignUpdate s id _ (fun t => rfl) (fun t => rfl) (fun t => rfl)
      (fun t => rfl) (fun t => rfl) h
  | appendLine id line =>
    exact storeInv_benignUpdate s id _ (fun t => rfl) (fun t => rfl) (fun t => rfl)
      (fun t => rfl) (fun t => rfl) h
  | cancel id =>
    simp only [applyOp]
    cases hc : cancelTask s id with
    | ok s' => exact storeInv_cancelTask hc h
    | error e => exact h
  | retry id =>
    simp only [applyOp]
    cases hc : retryTask s id with
    | ok s' => exact storeInv_retryTask hc h
    | error e => exact h
  | cleanup cutoff => exact storeInv_cleanup s cutoff h

/-- Every reachable store state satisfies the structural invariant. -/
theorem storeInv_reachable {s : StoreState} (h : Reachable s) : StoreInv s := by
  induction h with
  | init => constructor <;> simp [initState]
  | step h op ih => exact storeInv_applyOp _ op ih

/-! ### Preservation of the duplicate-admission bound -/

theorem bound_mono_updateTask (s : StoreState) (q : List BuildJob) (id : Nat)
    (f : BuildTask → BuildTask) (hf : ∀ t, isActive (f t) = false)
    (hb : BoundOK s) : BoundOK { tasks := updateTask s.tasks id f, queue := q } := by
  intro a ty
  unfold activeCount
  calc (updateTask s.tasks id f).countP (activePred a ty)
      ≤ s.tasks.countP (activePred a ty) := by
        apply countP_updateTask_le
        intro t ht he hp
        simp [activePred, hf] at hp
    _ ≤ 1 := hb a ty

theorem bound_benign_updateTask (s : StoreState) (q : List BuildJob) (id : Nat)
    (f : BuildTask → BuildTask)
    (happ : ∀ t, (f t).appId = t.appId) (hty : ∀ t, (f t).type = t.type)
    (hst : ∀ t, (f t).status = t.status) (hb : BoundOK s) :
    BoundOK { tasks := updateTask s.tasks id f, queue := q } := by
  intro a ty
  unfold activeCount
  rw [countP_updateTask_eq]
  · exact hb a ty
  · intro t ht he
    simp [activePred, isActive, happ, hty, hst]

theorem bound_createTask {s s' : StoreState} {ae au : Bool} {u : Nat}
    {dto : CreateBuildTaskDto} {nid now : Nat}
    (hok : createTask s ae au u dto nid now = .ok s') (hb : BoundOK s) :
    BoundOK s' := by
  unfold createTask at hok
  split at hok; · simp at hok
  split at hok; · simp at hok
  split at hok; · simp at hok
  split at hok; · simp at hok
  split at hok; · simp at hok
  rename_i hae hau hdup hq hidc
  simp only [Except.ok.injEq] at hok
  subst hok
  intro a ty
  unfold activeCount
  rw [List.countP_append]
  by_cases hA : dto.appId = a
  · by_cases hT : dto.type = ty
    · have h0 : s.tasks.countP (activePred a ty) = 0 := by
        rw [List.countP_eq_zero]
        intro t ht hp
        refine hdup (List.any_eq_true.mpr ⟨t, ht, ?_⟩)
        rw [hA, hT]
        exact hp
      have h1 : List.countP (activePred a ty) [{
          id := nid, appId := dto.appId, userId := u, type := dto.type,
          status := TaskStatus.PENDING, priority := dto.priority,
          branch := dto.branch, commitId := dto.commitId, version := dto.version,
          description := dto.description, operator := dto.operator, progress := 0,
          retryCount := 0, createTime := now, startTime := none, endTime := none,
          duration := none, errorMessage := none, qrcodeUrl := none,
          packageSize := none, buildLog := "" }] ≤ 1 := by
        rw [List.countP_cons, List.countP_nil]
        split <;> omega
      omega
    · have h1 : activePred a ty {
          id := nid, appId := dto.appId, userId := u, type := dto.type,
          status := TaskStatus.PENDING, priority := dto.priority,
          branch := dto.branch, commitId := dto.commitId, version := dto.version,
          description := dto.description, operator := dto.operator, progress := 0,
          retryCount := 0, createTime := now, startTime := none, endTime := none,
          duration := none, errorMessage := none, qrcodeUrl := none,
          packageSize := none, buildLog := "" } = false := by
        simp [activePred, hT]
      have hb' := hb a ty
      unfold activeCount at hb'
      rw [List.countP_cons, List.countP_nil, h1]
      simpa using hb'
  · have h1 : activePred a ty {
        id := nid, appId := dto.appId, userId := u, type := dto.type,
        status := TaskStatus.PENDING, priority := dto.priority,
        branch := dto.branch, commitId := dto.commitId, version := dto.version,
        description := dto.description, operator := dto.operator, progress := 0,
        retryCount := 0, createTime := now, startTime := none, endTime := none,
        duration := none, errorMessage := none, qrcodeUrl := none,
        packageSize := none, buildLog := "" } = false := by
      simp [activePred, hA]
    have hb' := hb a ty
    unfold activeCount at hb'
    rw [List.countP_cons, List.countP_nil, h1]
    simpa using hb'

theorem bound_procStart {s s' : StoreState} {id now : Nat}
    (hok : procStart s id now = some s') (hinv : StoreInv s) (hb : BoundOK s) :
    BoundOK s' := by
  unfold procStart at hok
  split at hok
  case isFalse => simp at hok
  case isTrue hq =>
    simp only [Option.some.injEq] at hok
    subst hok
    obtain ⟨j₀, hj₀, hj₀id⟩ := List.any_eq_true.mp hq
    obtain ⟨t₀, ht₀, ht₀id, ht₀st⟩ := hinv.jobTask j₀ hj₀
    have ht₀id' : t₀.id = id := by rw [ht₀id]; simpa using hj₀id
    intro a ty
    unfold activeCount
    rw [countP_updateTask_eq]
    · exact hb a ty
    · intro t ht he
      have heq : t = t₀ := task_eq_of_id hinv.uniq ht ht₀ (by rw [ht₀id']; exact he)
      subst heq
      simp [activePred, isActive, applyUpdateStatus, ht₀st]

theorem bound_procFinish {s s' : StoreState} {id now : Nat} {ok : Bool}
    {d : UpdateStatusData} (hok : procFinish s id now ok d = some s')
    (hb : BoundOK s) : BoundOK s' := by
  unfold procFinish at hok
  cases hf : findTask s.tasks id with
  | none => rw [hf] at hok; simp at hok
  | some t =>
    rw [hf] at hok
    simp only [] at hok
    split at hok
    · simp only [Option.some.injEq] at hok
      subst hok
      exact bound_mono_updateTask s s.queue id _
        (by cases ok <;> (intro t; simp [isActive, applyUpdateStatus])) hb
    · simp at hok

theorem bound_cancelTask {s s' : StoreState} {id : Nat}
    (hok : cancelTask s id = .ok s') (hb : BoundOK s) : BoundOK s' := by
  unfold cancelTask at hok
  cases hf : findTask s.tasks id with
  | none => rw [hf] at hok; simp at hok
  | some t =>
    rw [hf] at hok
    simp only [] at hok
    split at hok
    · simp at hok
    · simp only [Except.ok.injEq] at hok
      subst hok
      exact bound_mono_updateTask s _ id _
        (by intro t; simp [isActive, applyUpdateStatus]) hb

theorem bound_cleanup (s : StoreState) (cutoff : Nat) (hb : BoundOK s) :
    BoundOK (cleanupExpired s cutoff) := by
  intro a ty
  unfold activeCount cleanupExpired
  calc (s.tasks.filter _).countP (activePred a ty)
      ≤ s.tasks.countP (activePred a ty) :=
        List.Sublist.countP_le _ (List.filter_sublist _)
    _ ≤ 1 := hb a ty

/-- Every store operation other than the user-facing retry and Bull's
queue-level re-delivery preserves the at-most-one-active-task-per-(appId,
type) bound; both excluded operations re-activate a FAILED task without a
duplicate-active check and can exceed it. -/
theorem bound_applyOp (s : StoreState) (op : Op) (hinv : StoreInv s)
    (hb : BoundOK s) (hnr : op.isRetry = false)
    (hnd : op.isRedeliver = false) : BoundOK (applyOp s op) := by
  cases op with
  | create ae au u dto nid now =>
    simp only [applyOp]
    cases hc : createTask s ae au u dto nid now with
    | ok s' => exact bound_createTask hc hb
    | error e => exact hb
  | start id now =>
    simp only [applyOp]
    cases hc : procStart s id now with
    | some s' => exact bound_procStart hc hinv hb
    | none => exact hb
  | finishOk id now q p =>
    simp only [applyOp]
    cases hc : procFinish s id now true ⟨none, q, p⟩ with
    | some s' => exact bound_procFinish hc hb
    | none => exact hb
  | finishFail id now m =>
    simp only [applyOp]
    cases hc : procFinish s id now false ⟨some m, none, none⟩ with
    | some s' => exact bound_procFinish hc hb
    | none => exact hb
  | redeliver id now => cases hnd
  | setProgress id p =>
    exact bound_benign_updateTask s s.queue id _ (fun t => rfl) (fun t => rfl)
      (fun t => rfl) hb
  | appendLine id line =>
    exact bound_benign_updateTask s s.queue id _ (fun t => rfl) (fun t => rfl)
      (fun t => rfl) hb
  | cancel id =>
    simp only [applyOp]
    cases hc : cancelTask s id with
    | ok s' => exact bound_cancelTask hc hb
    | error e => exact hb
  | retry id => cases hnr
  | cleanup cutoff => exact bound_cleanup s cutoff hb

/-! ### Claim theorems about the task store -/

theorem applyUpdateStatus_cancelled_eq (t : BuildTask) :
    applyUpdateStatus t TaskStatus.CANCELLED 0 noUpdateData =
      { t with status := TaskStatus.CANCELLED } := by
  unfold applyUpdateStatus noUpdateData
  simp

/-- A build-task dto used by the concrete runs below. -/
def demoDto : CreateBuildTaskDto :=
  ⟨1, BuildType.UPLOAD, 2, "main", none, "1.0.0", none, "op"⟩

/-- Run refuting C1: create task 1, run it, let it fail, create task 2 for
the same (appId, type) pair (allowed: task 1 is FAILED), then retry task 1. -/
def c1State : StoreState :=
  applyOp (applyOp (applyOp (applyOp (applyOp initState
    (Op.create true true 5 demoDto 1 1000))
    (Op.start 1 2000))
    (Op.finishFail 1 3500 "build failed"))
    (Op.create true true 5 demoDto 2 4000))
    (Op.retry 1)

/-- Run refuting C1 without any user retry: after task 1's first delivery
attempt fails, Bull's automatic re-delivery (`attempts: 3`) marks it RUNNING
again while task 2 for the same (appId, type) pair is already PENDING. -/
def c1StateB : StoreState :=
  applyOp (applyOp (applyOp (applyOp (applyOp initState
    (Op.create true true 5 demoDto 1 1000))
    (Op.start 1 2000))
    (Op.finishFail 1 3500 "build failed"))
    (Op.create true true 5 demoDto 2 4000))
    (Op.redeliver 1 5000)

/-- C1 counterexample: the claimed invariant "the number of PENDING/RUNNING
tasks for a given (appId, type) never exceeds 1 over every operation
sequence" is false on two paths.  After create, run, fail, create, retry the
store holds two PENDING tasks for (appId 1, UPLOAD): `BuildTasksService.retry`
re-enters a FAILED task at PENDING without re-running the duplicate-active
check that `create` performs.  And with no user retry at all, Bull's
automatic re-delivery of the failed attempt marks task 1 RUNNING while
task 2 is PENDING — a second violation by an operation the program performs
by itself. -/
theorem c1_retry_breaks_bound :
    (Reachable c1State ∧ activeCount c1State.tasks 1 BuildType.UPLOAD = 2) ∧
    (Reachable c1StateB ∧ activeCount c1StateB.tasks 1 BuildType.UPLOAD = 2) :=
  ⟨⟨Reachable.step (Reachable.step (Reachable.step (Reachable.step
      (Reachable.step Reachable.init (Op.create true true 5 demoDto 1 1000))
      (Op.start 1 2000)) (Op.finishFail 1 3500 "build failed"))
      (Op.create true true 5 demoDto 2 4000)) (Op.retry 1),
    by decide⟩,
   ⟨Reachable.step (Reachable.step (Reachable.step (Reachable.step
      (Reachable.step Reachable.init (Op.create true true 5 demoDto 1 1000))
      (Op.start 1 2000)) (Op.finishFail 1 3500 "build failed"))
      (Op.create true true 5 demoDto 2 4000)) (Op.redeliver 1 5000),
    by decide⟩⟩

/-- C1 (amended): `create` rejects a submission with `DuplicateActiveTask`
whenever a PENDING/RUNNING task for the same (appId, type) already exists,
and every store operation other than the user-facing `retry` and Bull's
queue-level re-delivery of a failed attempt preserves the
at-most-one-active-task bound; `retry` re-enters a FAILED task at PENDING
and a re-delivery re-marks a FAILED task RUNNING, each without a
duplicate-active check, so either can drive the count to 2 (see the
counterexample). -/
theorem c1_amended_bound (s : StoreState) (op : Op) (hinv : StoreInv s)
    (hb : BoundOK s) (hnr : op.isRetry = false) (hnd : op.isRedeliver = false) :
    BoundOK (applyOp s op) ∧
      (∀ (userId : Nat) (dto : CreateBuildTaskDto) (newId now : Nat),
        hasActiveDuplicate s.tasks dto.appId dto.type = true →
        createTask s true true userId dto newId now =
          .error CreateError.DuplicateActiveTask) := by
  refine ⟨bound_applyOp s op hinv hb hnr hnd, ?_⟩
  intro userId dto newId now hdup
  unfold createTask
  simp [hdup]

/-- Witness for the amended C1 at a concrete state and operation. -/
theorem c1_amended_bound_witness :
    StoreInv initState ∧ BoundOK initState ∧ (Op.cancel 1).isRetry = false ∧
      (Op.cancel 1).isRedeliver = false ∧
      (BoundOK (applyOp initState (Op.cancel 1)) ∧
        (∀ (userId : Nat) (dto : CreateBuildTaskDto) (newId now : Nat),
          hasActiveDuplicate initState.tasks dto.appId dto.type = true →
          createTask initState true true userId dto newId now =
            .error CreateError.DuplicateActiveTask)) := by
  have hinv : StoreInv initState := by constructor <;> simp [initState]
  have hb : BoundOK initState := by
    intro a ty
    simp [activeCount, initState]
  exact ⟨hinv, hb, rfl, rfl,
    c1_amended_bound initState (Op.cancel 1) hinv hb rfl rfl⟩

/-- C3: `retry(id)` is rejected when the task's status is not FAILED, and when
`retryCount` has reached 3; on a FAILED task with `retryCount < 3` it succeeds
and rewrites the same record (same id set, no new task) to PENDING with
`retryCount + 1`, `progress 0` and cleared
`startTime`/`endTime`/`duration`/`errorMessage`. -/
theorem c3_retry_semantics (s : StoreState) (id : Nat) (t : BuildTask)
    (hfind : findTask s.tasks id = some t) :
    (t.status ≠ TaskStatus.FAILED → retryTask s id = .error CtrlError.InvalidState) ∧
    (t.status = TaskStatus.FAILED → 3 ≤ t.retryCount →
      retryTask s id = .error CtrlError.RetryLimit) ∧
    (t.status = TaskStatus.FAILED → t.retryCount < 3 →
      ∃ s', retryTask s id = .ok s' ∧
        s'.tasks.map (fun u => u.id) = s.tasks.map (fun u => u.id) ∧
        s'.tasks.length = s.tasks.length ∧
        findTask s'.tasks id = some { t with
          status := TaskStatus.PENDING, retryCount := t.retryCount + 1,
          progress := 0, startTime := none, endTime := none, duration := none,
          errorMessage := none }) := by
  unfold retryTask
  rw [hfind]
  simp only []
  refine ⟨?_, ?_, ?_⟩
  · intro hne
    rw [if_pos hne]
  · intro hfl hcnt
    rw [if_neg (by simp [hfl]), if_pos hcnt]
  · intro hfl hcnt
    rw [if_neg (by simp [hfl]), if_neg (by omega)]
    refine ⟨_, rfl, ?_, ?_, ?_⟩
    · exact updateTask_map_field _ _ _ _ (fun u => rfl)
    · simp [updateTask]
    · rw [findTask_updateTask]
      · rw [hfind]
        rfl
      · intro u
        rfl

/-- A FAILED task with one prior retry, for the C3 witness. -/
def c3Task : BuildTask :=
  { id := 9, appId := 1, userId := 5, type := BuildType.UPLOAD,
    status := TaskStatus.FAILED, priority := 2, branch := "main",
    commitId := none, version := "1.0.0", description := none, operator := "op",
    progress := 55, retryCount := 1, createTime := 1000, startTime := some 2000,
    endTime := some 3000, duration := some 1, errorMessage := some "boom",
    qrcodeUrl := none, packageSize := none, buildLog := "log" }

/-- Store holding `c3Task`, for the C3 witness. -/
def c3Store : StoreState := ⟨[c3Task], []⟩

/-- Witness for C3 at a concrete FAILED task with retryCount 1. -/
theorem c3_retry_semantics_witness :
    findTask c3Store.tasks 9 = some c3Task ∧
      ((c3Task.status ≠ TaskStatus.FAILED →
          retryTask c3Store 9 = .error CtrlError.InvalidState) ∧
        (c3Task.status = TaskStatus.FAILED → 3 ≤ c3Task.retryCount →
          retryTask c3Store 9 = .error CtrlError.RetryLimit) ∧
        (c3Task.status = TaskStatus.FAILED → c3Task.retryCount < 3 →
          ∃ s', retryTask c3Store 9 = .ok s' ∧
            s'.tasks.map (fun u => u.id) = c3Store.tasks.map (fun u => u.id) ∧
            s'.tasks.length = c3Store.tasks.length ∧
            findTask s'.tasks 9 = some { c3Task with
              status := TaskStatus.PENDING, retryCount := c3Task.retryCount + 1,
              progress := 0, startTime := none, endTime := none, duration := none,
              errorMessage := none })) :=
  ⟨rfl, c3_retry_semantics c3Store 9 c3Task rfl⟩

/-- C4: `cancel(id)` on a SUCCESS/FAILED/CANCELLED task is rejected with the
invalid-state error and leaves the store unchanged; on a PENDING/RUNNING task
it removes the first queued job whose `taskId` matches (a no-op when none is
queued) and rewrites the same record (same id set) to CANCELLED, all other
fields untouched. -/
theorem c4_cancel_semantics (s : StoreState) (id : Nat) (t : BuildTask)
    (hfind : findTask s.tasks id = some t) :
    ((t.status = TaskStatus.SUCCESS ∨ t.status = TaskStatus.FAILED ∨
        t.status = TaskStatus.CANCELLED) →
      cancelTask s id = .error CtrlError.InvalidState ∧
        applyOp s (Op.cancel id) = s) ∧
    ((t.status = TaskStatus.PENDING ∨ t.status = TaskStatus.RUNNING) →
      ∃ s', cancelTask s id = .ok s' ∧
        s'.queue = s.queue.eraseP (fun j => j.taskId == id) ∧
        s'.tasks.map (fun u => u.id) = s.tasks.map (fun u => u.id) ∧
        findTask s'.tasks id = some { t with status := TaskStatus.CANCELLED }) := by
  constructor
  · intro hterm
    have hg : t.status ≠ TaskStatus.PENDING ∧ t.status ≠ TaskStatus.RUNNING := by
      rcases hterm with h | h | h <;> rw [h] <;> exact ⟨by simp, by simp⟩
    have herr : cancelTask s id = .error CtrlError.InvalidState := by
      unfold cancelTask
      rw [hfind]
      simp only []
      rw [if_pos hg]
    refine ⟨herr, ?_⟩
    simp only [applyOp]
    rw [herr]
  · intro hpr
    have hg : ¬(t.status ≠ TaskStatus.PENDING ∧ t.status ≠ TaskStatus.RUNNING) := by
      rcases hpr with h | h <;> rw [h] <;> simp
    have hok : cancelTask s id = .ok
        { tasks := updateTask s.tasks id
            (fun u => applyUpdateStatus u TaskStatus.CANCELLED 0 noUpdateData),
          queue := s.queue.eraseP (fun j => j.taskId == id) } := by
      unfold cancelTask
      rw [hfind]
      simp only []
      rw [if_neg hg]
    refine ⟨_, hok, rfl, ?_, ?_⟩
    · exact updateTask_map_field _ _ _ _ (fun u => applyUpdateStatus_id u _ _ _)
    · rw [findTask_updateTask _ _ _ (fun u => applyUpdateStatus_id u _ _ _), hfind]
      show some (applyUpdateStatus t TaskStatus.CANCELLED 0 noUpdateData) = _
      rw [applyUpdateStatus_cancelled_eq]

/-- A RUNNING task with a (stale) queued job, for the C4 witness. -/
def c4Task : BuildTask :=
  { id := 4, appId := 2, userId := 5, type := BuildType.PREVIEW,
    status := TaskStatus.RUNNING, priority := 1, branch := "dev",
    commitId := some "abc", version := "0.2.0", description := none,
    operator := "op", progress := 40, retryCount := 0, createTime := 1000,
    startTime := some 2000, endTime := none, duration := none,
    errorMessage := none, qrcodeUrl := none, packageSize := none,
    buildLog := "" }

/-- Store holding `c4Task`, for the C4 witness. -/
def c4Store : StoreState := ⟨[c4Task], [⟨4⟩]⟩

/-- Witness for C4 at a concrete RUNNING task. -/
theorem c4_cancel_semantics_witness :
    findTask c4Store.tasks 4 = some c4Task ∧
      (((c4Task.status = TaskStatus.SUCCESS ∨ c4Task.status = TaskStatus.FAILED ∨
          c4Task.status = TaskStatus.CANCELLED) →
        cancelTask c4Store 4 = .error CtrlError.InvalidState ∧
          applyOp c4Store (Op.cancel 4) = c4Store) ∧
      ((c4Task.status = TaskStatus.PENDING ∨ c4Task.status = TaskStatus.RUNNING) →
        ∃ s', cancelTask c4Store 4 = .ok s' ∧
          s'.queue = c4Store.queue.eraseP (fun j => j.taskId == 4) ∧
          s'.tasks.map (fun u => u.id) = c4Store.tasks.map (fun u => u.id) ∧
          findTask s'.tasks 4 = some { c4Task with status := TaskStatus.CANCELLED })) :=
  ⟨rfl, c4_cancel_semantics c4Store 4 c4Task rfl⟩

/-- Run refuting C5's universal reading: task 1 fails at 3500, and Bull's
automatic re-delivery re-marks it RUNNING at 10000.  `updateStatus` refreshes
`startTime` but clears neither `endTime` nor `duration`. -/
def c5CexState : StoreState :=
  applyOp (applyOp (applyOp (applyOp initState
    (Op.create true true 5 demoDto 1 1000))
    (Op.start 1 2000))
    (Op.finishFail 1 3500 "build failed"))
    (Op.redeliver 1 10000)

/-- C5 counterexample: after Bull re-delivers a failed build attempt, the
re-marked RUNNING task keeps its stale `endTime` and `duration` from the
failed attempt while `startTime` has been refreshed, so both conjuncts of
the claim fail on a reachable state: `duration`/`endTime` are set on a
non-terminal task, and `duration` no longer equals
`floor((endTime - startTime)/1000)`. -/
theorem c5_stale_duration_on_redelivery :
    Reachable c5CexState ∧
      (findTask c5CexState.tasks 1).map
        (fun t => (t.status, t.startTime, t.endTime, t.duration)) =
        some (TaskStatus.RUNNING, some 10000, some 3500, some 1) ∧
      ¬((1 : Int) = (((3500 : Int) - (10000 : Int)).fdiv 1000)) :=
  ⟨Reachable.step (Reachable.step (Reachable.step (Reachable.step
      Reachable.init (Op.create true true 5 demoDto 1 1000))
      (Op.start 1 2000)) (Op.finishFail 1 3500 "build failed"))
      (Op.redeliver 1 10000),
   by decide, by decide⟩

/-- C5 (amended): in every reachable store state, every task whose status is
SUCCESS or FAILED and whose `startTime` and `endTime` are both set has
`duration = floor((endTime - startTime)/1000)` — the formula
`Math.floor((endTime.getTime() - startTime.getTime()) / 1000)` of
`BuildTasksService.updateStatus`.  The unconditional version is false:
Bull's re-delivery of a failed attempt leaves a RUNNING task with a stale
`endTime`/`duration` and a refreshed `startTime` (see the counterexample). -/
theorem c5_terminal_duration (s : StoreState) (h : Reachable s) :
    ∀ t ∈ s.tasks,
      (t.status = TaskStatus.SUCCESS ∨ t.status = TaskStatus.FAILED) →
      ∀ st en, t.startTime = some st → t.endTime = some en →
        t.duration = some (((en : Int) - (st : Int)).fdiv 1000) := by
  intro t ht hterm st en hst hen
  exact (storeInv_reachable h).terminalDur t ht hterm st en hst hen

/-- A reachable state in which a task ran to SUCCESS, for the C5 witness. -/
def c5State : StoreState :=
  applyOp (applyOp (applyOp initState (Op.create true true 5 demoDto 1 1000))
    (Op.start 1 2000)) (Op.finishOk 1 4500 (some "qr.jpg") none)

/-- Witness for the amended C5 at a concrete reachable state with a finished
task. -/
theorem c5_terminal_duration_witness :
    Reachable c5State ∧
      ∀ t ∈ c5State.tasks,
        (t.status = TaskStatus.SUCCESS ∨ t.status = TaskStatus.FAILED) →
        ∀ st en, t.startTime = some st → t.endTime = some en →
          t.duration = some (((en : Int) - (st : Int)).fdiv 1000) :=
  ⟨Reachable.step (Reachable.step (Reachable.step Reachable.init
      (Op.create true true 5 demoDto 1 1000)) (Op.start 1 2000))
      (Op.finishOk 1 4500 (some "qr.jpg") none),
   c5_terminal_duration c5State
     (Reachable.step (Reachable.step (Reachable.step Reachable.init
       (Op.create true true 5 demoDto 1 1000)) (Op.start 1 2000))
       (Op.finishOk 1 4500 (some "qr.jpg") none))⟩

/-! ### Build pipeline progress milestones
(`build.processor.ts` + `build.service.ts`) -/

/-- Which stages of `BuildService.build` complete without throwing, in source
order: `fs.ensureDir`, `cloneRepository`, `installDependencies`,
`buildNativeMiniprogram`, `buildProject`, `uploadOrPreview`, `fs.remove`. -/
structure StageOutcomes where
  mkWorkDir : Bool
  cloneRepo : Bool
  installDeps : Bool
  packNpm : Bool
  buildCmd : Bool
  uploadPreview : Bool
  removeDir : Bool
deriving DecidableEq, Repr

/-- The successive progress values `BuildService.build` reports through its
`onProgress` callback, each forwarded by the processor to
`BuildTasksService.updateProgress`, i.e. written to the task record.  The
local `updateStatus(status, progress, message)` helper calls
`onProgress(progress, message)` exactly when `progress` is defined and a
message is given; the milestones before each stage are 0, 10, 20, 30, 40, 60,
80, 90 and finally 100, and the `FAILED` branch passes
`progress = undefined`, so a throwing stage adds no further write. -/
def buildProgressWrites (o : StageOutcomes) : List Nat :=
  0 :: 10 ::
    (if o.mkWorkDir then 20 ::
      (if o.cloneRepo then 30 ::
        (if o.installDeps then 40 ::
          (if o.packNpm then 60 ::
            (if o.buildCmd then 80 ::
              (if o.uploadPreview then 90 ::
                (if o.removeDir then [100] else [])
              else [])
            else [])
          else [])
        else [])
      else [])
    else [])

/-- `BuildProcessor.handleBuildMiniprogram`: after marking the task RUNNING it
looks up the miniprogram (aborting when absent), writes progress 10 via
`updateProgress(taskId, 10)`, then runs `BuildService.build`, whose
`onProgress` values follow.  Every one of these writes happens while the
record's status is RUNNING: the terminal `updateStatus(SUCCESS/FAILED)` is
issued only after `build` returns or throws, and `updateStatus` itself never
touches the `progress` column. -/
def processorProgressWrites (appFound : Bool) (o : StageOutcomes) : List Nat :=
  if appFound then 10 :: buildProgressWrites o else []

/-- The fully successful run. -/
def allStagesOK : StageOutcomes := ⟨true, true, true, true, true, true, true⟩

/-- C2 counterexample: in a successful run the progress values written to the
task record while it is RUNNING are 10 (written by the processor) followed by
0, 10, 20, 30, 40, 60, 80, 90, 100 (written by the pipeline, which restarts
at 0) — the second write drops from 10 to 0, so the sequence is not
non-decreasing. -/
theorem c2_progress_not_monotone :
    processorProgressWrites true allStagesOK =
      [10, 0, 10, 20, 30, 40, 60, 80, 90, 100] ∧
    ¬ List.Chain' (· ≤ ·) (processorProgressWrites true allStagesOK) := by
  refine ⟨rfl, ?_⟩
  intro h
  have : (10 : Nat) ≤ 0 := List.chain'_cons.mp h |>.1
  omega

/-- C2 (amended): the pipeline's own progress writes form a non-decreasing
sequence in every run (whichever stage throws first), but the full sequence
written while the task is RUNNING is the processor's initial 10 followed by
the pipeline's writes, which restart at 0 — so the combined sequence
decreases exactly once, at that hand-off. -/
theorem c2_pipeline_monotone (o : StageOutcomes) :
    List.Chain' (· ≤ ·) (buildProgressWrites o) ∧
    processorProgressWrites true o = 10 :: buildProgressWrites o ∧
    processorProgressWrites false o = [] := by
  refine ⟨?_, rfl, rfl⟩
  obtain ⟨a, b, c, d, e, f, g⟩ := o
  cases a <;> cases b <;> cases c <;> cases d <;> cases e <;> cases f <;>
    cases g <;> simp [buildProgressWrites, List.chain'_cons]

/-! ### Webhook signature verification and trigger decision
(`webhooks.service.ts`) -/

/-- JavaScript string truthiness for optional fields: `null`/`undefined` and
the empty string are falsy. -/
def jsStr (o : Option String) : Option String :=
  match o with
  | some s => if s = "" then none else some s
  | none => none

/-- `headers[key]`: the request headers as a key-value list. -/
def lookupHeader (headers : List (String × String)) (key : String) :
    Option String :=
  (headers.find? (fun h => h.1 == key)).map (fun h => h.2)

/-- A header value that is present and truthy (`if (headers[...])`). -/
def headerTruthy (headers : List (String × String)) (key : String) :
    Option String :=
  jsStr (lookupHeader headers key)

/-- `WebhooksService.verifySignature`.  `hmacHex secret payload` stands for
`crypto.createHmac('sha256', secret).update(payload).digest('hex')`; the
GitHub branch compares the `x-hub-signature-256` header against
`sha256=<hmac>`, the GitLab branch compares the `x-gitlab-token` header
against the secret (`crypto.timingSafeEqual` on equal lengths; a length
mismatch throws and the surrounding catch returns false, so the net result is
string equality), and with neither header present the function returns
`true`. -/
def verifySignature (hmacHex : String → String → String)
    (secret payload : String) (headers : List (String × String)) : Bool :=
  match headerTruthy headers "x-hub-signature-256" with
  | some sig => sig == "sha256=" ++ hmacHex secret payload
  | none =>
    match headerTruthy headers "x-gitlab-token" with
    | some tok => tok == secret
    | none => true

/-- The part of the canonical event's `pullRequest` field inspected by the
trigger decision. -/
structure PullRequestData where
  merged : Bool
deriving DecidableEq, Repr

/-- The fields of the canonical `GitEventData` that `handleGitEvent` and
`shouldTriggerBuild` inspect (`repository`, `commits` and `pusher` are only
copied into the created task, which is modelled as an oracle below). -/
structure GitEventData where
  eventType : String
  branch : String
  pullRequest : Option PullRequestData
deriving DecidableEq, Repr

/-- The miniprogram config fields read by `shouldTriggerBuild`. -/
structure MiniprogramConfig where
  autoBuild : Bool
  gitBranch : Option String
deriving DecidableEq, Repr

/-- The miniprogram row as seen by `shouldTriggerBuild` (`config` is the
optional joined `MiniprogramConfig`). -/
structure Miniprogram where
  config : Option MiniprogramConfig
deriving DecidableEq, Repr

/-- A webhook row: the fields `handleGitEvent` reads from the matched
webhook. -/
structure Webhook where
  secret : Option String
  events : List String
deriving DecidableEq, Repr

/-- The `{should, reason}` pair returned by `shouldTriggerBuild`. -/
structure TriggerDecision where
  should : Bool
  reason : String
deriving DecidableEq, Repr

/-- `miniprogram.config.gitBranch || 'master'`. -/
def effectiveBranch (cfg : MiniprogramConfig) : String :=
  match jsStr cfg.gitBranch with
  | some b => b
  | none => "master"

/-- `eventData.pullRequest?.merged` under JavaScript optional chaining. -/
def prMerged (e : GitEventData) : Bool :=
  match e.pullRequest with
  | some pr => pr.merged
  | none => false

/-- `WebhooksService.shouldTriggerBuild`: requires a config, the auto-build
flag, a branch match against `gitBranch || 'master'`, and a push event or a
merged pull request; every other combination yields `should = false` with a
reason string. -/
def shouldTriggerBuild (e : GitEventData) (m : Miniprogram) : TriggerDecision :=
  match m.config with
  | none => ⟨false, "小程序未配置构建参数"⟩
  | some cfg =>
    if ¬ cfg.autoBuild then ⟨false, "小程序未启用自动构建"⟩
    else
      if e.branch ≠ effectiveBranch cfg then
        ⟨false, "分支不匹配，配置分支: " ++ effectiveBranch cfg ++
          "，事件分支: " ++ e.branch⟩
      else if e.eventType = "push" then ⟨true, "推送事件触发构建"⟩
      else if e.eventType = "pull_request" then
        if prMerged e then ⟨true, "PR合并触发构建"⟩
        else ⟨false, "PR未合并，不触发构建"⟩
      else ⟨false, "不支持的事件类型: " ++ e.eventType⟩

/-- Externally visible steps of `handleGitEvent`, in execution order:
`parseGitEvent`, `verifySignature`, the `lastTrigger` database update, and
`triggerBuild` (task creation). -/
inductive WebhookAction
  | parseEvent
  | verifySig
  | updateLastTrigger
  | createBuildTask
deriving DecidableEq, Repr

/-- The exceptions `handleGitEvent` can propagate: the miniprogram lookup's
`NotFoundException`, the `BadRequestException('Webhook签名验证失败')`, and any
error thrown by `triggerBuild`. -/
inductive WebhookFailure
  | appNotFound
  | signatureInvalid
  | buildCreateFailed (msg : String)
deriving DecidableEq, Repr

/-- The `{triggered, taskId?, message}` result of `handleGitEvent`. -/
structure TriggerOutcome where
  triggered : Bool
  taskId : Option Nat
  message : String
deriving DecidableEq, Repr

/-- The collaborator results `handleGitEvent` consumes: the miniprogram
lookup, the app's ACTIVE webhooks, the value `parseGitEvent` returns for this
payload (the provider-specific parsers are pure; their result is passed in),
and the outcome of `triggerBuild` (auto-version + `BuildTasksService.create`). -/
structure WebhookEnv where
  miniprogram : Option Miniprogram
  webhooks : List Webhook
  parsedEvent : Option GitEventData
  createResult : Except String Nat
deriving Repr

/-- Continuation of `handleGitEvent` after the signature check: update
`lastTrigger`, evaluate `shouldTriggerBuild`, and either report the reason or
call `triggerBuild`. -/
def handleAfterSignature (env : WebhookEnv) (mini : Miniprogram)
    (ev : GitEventData) (tr : List WebhookAction) :
    Except WebhookFailure TriggerOutcome × List WebhookAction :=
  let tr1 := tr ++ [WebhookAction.updateLastTrigger]
  let d := shouldTriggerBuild ev mini
  if d.should then
    match env.createResult with
    | .ok tid => (.ok ⟨true, some tid, "构建任务已触发"⟩,
        tr1 ++ [WebhookAction.createBuildTask])
    | .error m => (.error (.buildCreateFailed m),
        tr1 ++ [WebhookAction.createBuildTask])
  else (.ok ⟨false, none, d.reason⟩, tr1)

/-- `WebhooksService.handleGitEvent`, with the trace of externally visible
steps it performs: look up the miniprogram, bail out when no ACTIVE webhook
exists, parse the payload into a canonical event (bail out on `null`), find a
webhook listening to the event type, verify the signature when that webhook
has a truthy secret (aborting on failure), update `lastTrigger`, and apply the
trigger decision. -/
def handleGitEvent (env : WebhookEnv) (hmacHex : String → String → String)
    (payload : String) (headers : List (String × String)) :
    Except WebhookFailure TriggerOutcome × List WebhookAction :=
  match env.miniprogram with
  | none => (.error .appNotFound, [])
  | some mini =>
    if env.webhooks.isEmpty then
      (.ok ⟨false, none, "该小程序未配置活跃的Webhook"⟩, [])
    else
      match env.parsedEvent with
      | none => (.ok ⟨false, none, "不支持的事件类型或数据格式"⟩,
          [WebhookAction.parseEvent])
      | some ev =>
        match env.webhooks.find? (fun w => w.events.contains ev.eventType) with
        | none => (.ok ⟨false, none, "没有Webhook监听 " ++ ev.eventType ++ " 事件"⟩,
            [WebhookAction.parseEvent])
        | some w =>
          match jsStr w.secret with
          | some secret =>
            if verifySignature hmacHex secret payload headers then
              handleAfterSignature env mini ev
                [WebhookAction.parseEvent, WebhookAction.verifySig]
            else
              (.error .signatureInvalid,
                [WebhookAction.parseEvent, WebhookAction.verifySig])
          | none => handleAfterSignature env mini ev [WebhookAction.parseEvent]

theorem append_ne_empty_left (s t : String) (h : s.length ≠ 0) : s ++ t ≠ "" := by
  intro he
  have hl := congrArg String.length he
  rw [String.length_append] at hl
  have h0 : ("" : String).length = 0 := rfl
  rw [h0] at hl
  omega

/-- Every `should = false` reason produced by `shouldTriggerBuild` is a
non-empty string. -/
theorem shouldTriggerBuild_reason_ne (e : GitEventData) (m : Miniprogram) :
    (shouldTriggerBuild e m).reason ≠ "" := by
  unfold shouldTriggerBuild
  cases m.config with
  | none =>
    show ("小程序未配置构建参数" : String) ≠ ""
    decide
  | some cfg =>
    simp only []
    by_cases hab : ¬ cfg.autoBuild
    · rw [if_pos hab]
      decide
    · rw [if_neg hab]
      by_cases hbr : e.branch ≠ effectiveBranch cfg
      · rw [if_pos hbr]
        apply append_ne_empty_left
        intro h
        rw [String.length_append, String.length_append] at h
        have : "分支不匹配，配置分支: ".length = 12 := by decide
        omega
      · rw [if_neg hbr]
        by_cases hpush : e.eventType = "push"
        · rw [if_pos hpush]
          decide
        · rw [if_neg hpush]
          by_cases hpr : e.eventType = "pull_request"
          · rw [if_pos hpr]
            by_cases hm : prMerged e
            · rw [if_pos hm]
              decide
            · rw [if_neg hm]
              decide
          · rw [if_neg hpr]
            apply append_ne_empty_left
            intro h
            have : "不支持的事件类型: ".length = 10 := by decide
            omega

/-- The trigger decision of `shouldTriggerBuild`, as a propositional
characterization (given the miniprogram has a config). -/
theorem shouldTriggerBuild_should_iff (e : GitEventData) (m : Miniprogram)
    (cfg : MiniprogramConfig) (hcfg : m.config = some cfg) :
    ((shouldTriggerBuild e m).should = true ↔
      (cfg.autoBuild = true ∧ e.branch = effectiveBranch cfg ∧
        (e.eventType = "push" ∨
          (e.eventType = "pull_request" ∧ prMerged e = true)))) := by
  unfold shouldTriggerBuild
  rw [hcfg]
  simp only []
  by_cases hab : cfg.autoBuild
  · rw [if_neg (by simp [hab])]
    by_cases hbr : e.branch = effectiveBranch cfg
    · rw [if_neg (by simp [hbr])]
      by_cases hpush : e.eventType = "push"
      · rw [if_pos hpush]
        simp [hab, hbr, hpush]
      · rw [if_neg hpush]
        by_cases hpr : e.eventType = "pull_request"
        · rw [if_pos hpr]
          by_cases hm : prMerged e
          · rw [if_pos hm]
            simp [hab, hbr, hpr, hm]
          · rw [if_neg hm]
            simp [hab, hbr, hpush, hpr, hm]
        · rw [if_neg hpr]
          simp [hpush, hpr]
    · rw [if_pos (by simp [hbr])]
      simp [hbr]
  · rw [if_pos (by simp [hab])]
    simp [hab]

/-- The post-signature half of `handleGitEvent` follows the trigger decision
exactly when `triggerBuild` succeeds. -/
theorem handleAfterSignature_decision (env : WebhookEnv) (mini : Miniprogram)
    (ev : GitEventData) (tr : List WebhookAction) (tid : Nat)
    (hcr : env.createResult = .ok tid) :
    ∃ r, (handleAfterSignature env mini ev tr).1 = .ok r ∧
      r.triggered = (shouldTriggerBuild ev mini).should ∧
      (r.triggered = true → r.taskId = some tid ∧ r.message = "构建任务已触发") ∧
      (r.triggered = false → r.taskId = none ∧
        r.message = (shouldTriggerBuild ev mini).reason) := by
  unfold handleAfterSignature
  by_cases hd : (shouldTriggerBuild ev mini).should
  · rw [if_pos hd, hcr]
    refine ⟨_, rfl, hd.symm, fun _ => ⟨rfl, rfl⟩, fun h => absurd h (by simp)⟩
  · rw [if_neg hd]
    have hd' : (shouldTriggerBuild ev mini).should = false := by
      simpa using hd
    exact ⟨_, rfl, hd'.symm, fun h => absurd h (by simp),
      fun _ => ⟨rfl, rfl⟩⟩

theorem webhooks_nonempty_of_find {ws : List Webhook} {p : Webhook → Bool}
    {w : Webhook} (h : ws.find? p = some w) : ws.isEmpty = false := by
  cases ws with
  | nil => cases h
  | cons a l => rfl

/-- C6: when the collaborators succeed (the miniprogram and its config exist,
the payload parses, a listening ACTIVE webhook matches, the signature check
passes or no secret is configured, and task creation succeeds),
`handleGitEvent` returns `{triggered: true, taskId}` exactly when the app's
auto-build flag is enabled, the event branch equals the configured branch
(`gitBranch || 'master'`), and the event is a push or a merged pull request;
every other combination yields `{triggered: false}` with a non-empty reason
string and no error. -/
theorem c6_trigger_decision (env : WebhookEnv)
    (hmacHex : String → String → String) (payload : String)
    (headers : List (String × String)) (mini : Miniprogram)
    (cfg : MiniprogramConfig) (ev : GitEventData) (w : Webhook) (tid : Nat)
    (hm : env.miniprogram = some mini)
    (hcfg : mini.config = some cfg)
    (hev : env.parsedEvent = some ev)
    (hw : env.webhooks.find? (fun w => w.events.contains ev.eventType) = some w)
    (hsig : ∀ s, jsStr w.secret = some s →
      verifySignature hmacHex s payload headers = true)
    (hcr : env.createResult = .ok tid) :
    ∃ r, (handleGitEvent env hmacHex payload headers).1 = .ok r ∧
      (r.triggered = true ↔
        (cfg.autoBuild = true ∧ ev.branch = effectiveBranch cfg ∧
          (ev.eventType = "push" ∨
            (ev.eventType = "pull_request" ∧ prMerged ev = true)))) ∧
      (r.triggered = true → r.taskId = some tid ∧ r.message = "构建任务已触发") ∧
      (r.triggered = false → r.taskId = none ∧
        r.message = (shouldTriggerBuild ev mini).reason ∧ r.message ≠ "") := by
  have hmain : ∃ r, (handleGitEvent env hmacHex payload headers).1 = .ok r ∧
      r.triggered = (shouldTriggerBuild ev mini).should ∧
      (r.triggered = true → r.taskId = some tid ∧ r.message = "构建任务已触发") ∧
      (r.triggered = false → r.taskId = none ∧
        r.message = (shouldTriggerBuild ev mini).reason) := by
    unfold handleGitEvent
    rw [hm]
    simp only []
    rw [if_neg (by simp [webhooks_nonempty_of_find hw])]
    rw [hev]
    simp only []
    rw [hw]
    simp only []
    cases hs : jsStr w.secret with
    | some s =>
      simp only []
      rw [if_pos (hsig s hs)]
      exact handleAfterSignature_decision env mini ev _ tid hcr
    | none =>
      simp only []
      exact handleAfterSignature_decision env mini ev _ tid hcr
  obtain ⟨r, hr, htr, hpos, hneg⟩ := hmain
  refine ⟨r, hr, ?_, hpos, ?_⟩
  · rw [htr]
    exact shouldTriggerBuild_should_iff ev mini cfg hcfg
  · intro hf
    obtain ⟨h1, h2⟩ := hneg hf
    refine ⟨h1, h2, ?_⟩
    rw [h2]
    exact shouldTriggerBuild_reason_ne ev mini

/-- A toy hash function standing in for HMAC-SHA256 in the concrete runs. -/
def demoHmac : String → String → String := fun secret payload => secret ++ payload

/-- A miniprogram with auto-build enabled on branch `main`. -/
def demoMini : Miniprogram := ⟨some ⟨true, some "main"⟩⟩

/-- Webhook environment for the C6 witness: listening webhook without a
secret, parsed push event to `main`, task creation succeeding with id 42. -/
def c6Env : WebhookEnv :=
  ⟨some demoMini, [⟨none, ["push"]⟩], some ⟨"push", "main", none⟩, .ok 42⟩

/-- Witness for C6 at a concrete environment. -/
theorem c6_trigger_decision_witness :
    c6Env.miniprogram = some demoMini ∧
    demoMini.config = some ⟨true, some "main"⟩ ∧
    c6Env.parsedEvent = some ⟨"push", "main", none⟩ ∧
    c6Env.webhooks.find?
      (fun w => w.events.contains (⟨"push", "main", none⟩ : GitEventData).eventType) =
      some ⟨none, ["push"]⟩ ∧
    c6Env.createResult = .ok 42 ∧
    (∃ r, (handleGitEvent c6Env demoHmac "{}" []).1 = .ok r ∧
      (r.triggered = true ↔
        ((⟨true, some "main"⟩ : MiniprogramConfig).autoBuild = true ∧
          (⟨"push", "main", none⟩ : GitEventData).branch =
            effectiveBranch ⟨true, some "main"⟩ ∧
          ((⟨"push", "main", none⟩ : GitEventData).eventType = "push" ∨
            ((⟨"push", "main", none⟩ : GitEventData).eventType = "pull_request" ∧
              prMerged ⟨"push", "main", none⟩ = true)))) ∧
      (r.triggered = true → r.taskId = some 42 ∧ r.message = "构建任务已触发") ∧
      (r.triggered = false → r.taskId = none ∧
        r.message = (shouldTriggerBuild ⟨"push", "main", none⟩ demoMini).reason ∧
        r.message ≠ "")) :=
  ⟨rfl, rfl, rfl, rfl, rfl,
   c6_trigger_decision c6Env demoHmac "{}" [] demoMini ⟨true, some "main"⟩
     ⟨"push", "main", none⟩ ⟨none, ["push"]⟩ 42 rfl rfl rfl rfl
     (fun _ h => Option.noConfusion h) rfl⟩

/-- C7 (amended): when the matched webhook has a truthy secret configured,
`handleGitEvent` performs signature verification after the payload has been
translated into a canonical event and a listening webhook matched, but before
the `lastTrigger` update and before any build is triggered; a verification
failure aborts with the signature-invalid error, and the recorded trace
`[parseEvent, verifySig]` shows that neither the `lastTrigger` update nor a
task creation happened. -/
theorem c7_amended_signature (env : WebhookEnv)
    (hmacHex : String → String → String) (payload : String)
    (headers : List (String × String)) (mini : Miniprogram)
    (ev : GitEventData) (w : Webhook) (s : String)
    (hm : env.miniprogram = some mini)
    (hev : env.parsedEvent = some ev)
    (hw : env.webhooks.find? (fun w => w.events.contains ev.eventType) = some w)
    (hsecret : jsStr w.secret = some s)
    (hfail : verifySignature hmacHex s payload headers = false) :
    handleGitEvent env hmacHex payload headers =
      (.error .signatureInvalid,
        [WebhookAction.parseEvent, WebhookAction.verifySig]) := by
  unfold handleGitEvent
  rw [hm]
  simp only []
  rw [if_neg (by simp [webhooks_nonempty_of_find hw])]
  rw [hev]
  simp only []
  rw [hw]
  simp only []
  rw [hsecret]
  simp only []
  rw [if_neg (by simp [hfail])]

/-- Environment with a configured secret and an unparseable payload. -/
def c7EnvUnparsed : WebhookEnv :=
  ⟨some demoMini, [⟨some "s3cret", ["push"]⟩], none, .ok 1⟩

/-- Environment with a configured secret and a parseable push payload. -/
def c7EnvParsed : WebhookEnv :=
  ⟨some demoMini, [⟨some "s3cret", ["push"]⟩], some ⟨"push", "main", none⟩, .ok 1⟩

/-- Headers carrying a GitHub-style signature that does not match. -/
def c7Headers : List (String × String) := [("x-hub-signature-256", "sha256=bogus")]

/-- C7 counterexample: verification is not performed before translation.
With a truthy secret configured and a signature that fails verification, an
unparseable payload still completes with `{triggered: false}` and trace
`[parseEvent]` — no signature check ran and no SignatureInvalid error was
raised; and on a parseable payload the trace is `[parseEvent, verifySig]`:
translation strictly precedes verification. -/
theorem c7_translation_before_verification :
    verifySignature demoHmac "s3cret" "{}" c7Headers = false ∧
    handleGitEvent c7EnvUnparsed demoHmac "{}" c7Headers =
      (.ok ⟨false, none, "不支持的事件类型或数据格式"⟩, [WebhookAction.parseEvent]) ∧
    handleGitEvent c7EnvParsed demoHmac "{}" c7Headers =
      (.error .signatureInvalid,
        [WebhookAction.parseEvent, WebhookAction.verifySig]) :=
  ⟨rfl, rfl, rfl⟩

/-- Witness for the amended C7 at a concrete environment. -/
theorem c7_amended_signature_witness :
    c7EnvParsed.miniprogram = some demoMini ∧
    c7EnvParsed.parsedEvent = some ⟨"push", "main", none⟩ ∧
    c7EnvParsed.webhooks.find?
      (fun w => w.events.contains (⟨"push", "main", none⟩ : GitEventData).eventType) =
      some ⟨some "s3cret", ["push"]⟩ ∧
    jsStr (some "s3cret") = some "s3cret" ∧
    verifySignature demoHmac "s3cret" "{}" c7Headers = false ∧
    handleGitEvent c7EnvParsed demoHmac "{}" c7Headers =
      (.error .signatureInvalid,
        [WebhookAction.parseEvent, WebhookAction.verifySig]) :=
  ⟨rfl, rfl, rfl, rfl, rfl,
   c7_amended_signature c7EnvParsed demoHmac "{}" c7Headers demoMini
     ⟨"push", "main", none⟩ ⟨some "s3cret", ["push"]⟩ "s3cret"
     rfl rfl rfl rfl rfl⟩

/-- C9: when the request carries neither an `x-hub-signature-256` header nor
an `x-gitlab-token` header, `verifySignature` returns true for every secret
and payload — a request with no recognized signature header is never rejected
for a bad signature even though a secret is configured. -/
theorem c9_no_signature_header_accepts (hmacHex : String → String → String)
    (secret payload : String) (headers : List (String × String))
    (h1 : lookupHeader headers "x-hub-signature-256" = none)
    (h2 : lookupHeader headers "x-gitlab-token" = none) :
    verifySignature hmacHex secret payload headers = true := by
  unfold verifySignature headerTruthy
  rw [h1, h2]
  rfl

/-- Witness for C9 at concrete headers without signature headers. -/
theorem c9_no_signature_header_accepts_witness :
    lookupHeader [("content-type", "application/json")] "x-hub-signature-256" = none ∧
    lookupHeader [("content-type", "application/json")] "x-gitlab-token" = none ∧
    verifySignature demoHmac "s3cret" "{}"
      [("content-type", "application/json")] = true :=
  ⟨rfl, rfl,
   c9_no_signature_header_accepts demoHmac "s3cret" "{}"
     [("content-type", "application/json")] rfl rfl⟩

/-! ### Repository branch listing (`git-operation.service.ts`) -/

/-- Git auth type, prisma enum `GitAuthType`. -/
inductive GitAuthType
  | HTTPS
  | SSH
  | TOKEN
deriving DecidableEq, Repr

/-- The decrypted view returned by
`GitCredentialsService.getDecryptedCredential`: the stored `authType` and
`username` plus the decrypted secret fields (absent or empty when the stored
column is empty). -/
structure DecryptedCredential where
  authType : GitAuthType
  username : Option String
  decryptedPassword : Option String
  decryptedToken : Option String
  decryptedSshKey : Option String
deriving DecidableEq, Repr

/-- The `GitOperationErrorType` enum of `git-operation.dto.ts`. -/
inductive GitErrType
  | invalidCredentials
  | repositoryNotFound
  | networkError
  | authenticationFailed
  | permissionDenied
  | invalidUrl
  | unknownError
deriving DecidableEq, Repr

/-- A `GitOperationException`: classification plus message. -/
structure GitOpError where
  type : GitErrType
  message : String
deriving DecidableEq, Repr

/-- A thrown error inside `getRepositoryBranches`: either a classified
`GitOperationException` or any other exception (carried by its message). -/
inductive GitThrown
  | gitOp (e : GitOpError)
  | plain (msg : String)
deriving DecidableEq, Repr

/-- Externally visible steps of `getRepositoryBranches`, in execution order.
`workDirCreated` is recorded only when `fs.promises.mkdir` succeeded, and
`workDirRemoved` stands for the `finally` cleanup
(`cleanupTempDirectory`, whose own failure is logged and swallowed). -/
inductive GitAction
  | validateUrl
  | getCredential
  | validateCredential
  | workDirCreated
  | configureAuth
  | writeSshKey
  | addRemote
  | listRemote
  | symbolicRef
  | workDirRemoved
deriving DecidableEq, Repr

/-- One entry of the branch list: `{name, lastCommitSha, lastCommitDate}`
(`getBranchInfo` fills the date with the current time). -/
structure RepositoryBranch where
  name : String
  lastCommitSha : String
  lastCommitDate : Nat
deriving DecidableEq, Repr

/-- The `GetRepositoryBranchesResponseDto`. -/
structure BranchesResponse where
  success : Bool
  branches : List RepositoryBranch
  defaultBranch : String
  error : Option String
deriving DecidableEq, Repr

/-- Collaborator and I/O outcomes consumed by one `getRepositoryBranches`
run: the credential lookup (which may throw), the `validateCredential`
result, and the success or thrown error message of each external call
(`mkdir`, the SSH key write, `addRemote`, `listRemote`,
`symbolic-ref`); `none` means the call succeeded. -/
structure GitEnv where
  credResult : Except String DecryptedCredential
  validationOk : Bool
  validationErr : String
  mkdir : Option String
  sshWrite : Option String
  addRemote : Option String
  listRemote : Except String String
  symbolicRef : Except String String
  now : Nat
deriving Repr

/-- Does the character list start with the given pattern?  (Plain structural
recursion so that concrete runs reduce in the kernel.) -/
def charsStartWith : List Char → List Char → Bool
  | _, [] => true
  | [], _ :: _ => false
  | a :: as, b :: bs => a == b && charsStartWith as bs

/-- Does the pattern occur anywhere in the character list? -/
def charsContains (hay pat : List Char) : Bool :=
  if charsStartWith hay pat then true
  else
    match hay with
    | [] => false
    | _ :: t => charsContains t pat

/-- Remove the first occurrence of the pattern from the character list
(JavaScript `String.prototype.replace` with an empty replacement). -/
def stripFirstChars : List Char → List Char → List Char
  | [], _ => []
  | h :: t, pat =>
    if charsStartWith (h :: t) pat then (h :: t).drop pat.length
    else h :: stripFirstChars t pat

/-- Split a character list at every occurrence of the separator character
(JavaScript `String.prototype.split` with a one-character separator). -/
def splitCharList (c : Char) : List Char → List (List Char)
  | [] => [[]]
  | a :: as =>
    if a == c then [] :: splitCharList c as
    else
      match splitCharList c as with
      | [] => [[a]]
      | h :: t => (a :: h) :: t

/-- ASCII whitespace, for `trim`. -/
def isWS (c : Char) : Bool := c == ' ' || c == '\t' || c == '\n' || c == '\r'

/-- `String.prototype.trim` on a character list. -/
def trimChars (l : List Char) : List Char :=
  ((l.dropWhile isWS).reverse.dropWhile isWS).reverse

/-- `^(https?:\/\/|git@|ssh:\/\/)` from `validateRepositoryUrl`. -/
def validRepoUrl (url : String) : Bool :=
  charsStartWith url.data "http://".data ||
    charsStartWith url.data "https://".data ||
    charsStartWith url.data "git@".data ||
    charsStartWith url.data "ssh://".data

/-- `s.includes(sub)`. -/
def strContains (s sub : String) : Bool := charsContains s.data sub.data

/-- JavaScript `String.prototype.replace` with a string pattern and empty
replacement: remove the first occurrence only. -/
def stripFirst (s pat : String) : String :=
  String.mk (stripFirstChars s.data pat.data)

/-- The error classification in `fetchRemoteBranches`' catch block. -/
def classifyFetchError (msg : String) : GitOpError :=
  if strContains msg "Authentication failed" then
    ⟨GitErrType.authenticationFailed, "认证失败，请检查凭证信息"⟩
  else if strContains msg "not found" || strContains msg "does not exist" then
    ⟨GitErrType.repositoryNotFound, "仓库不存在或无访问权限"⟩
  else ⟨GitErrType.networkError, "网络错误: " ++ msg⟩

/-- `configureGitWithCredentials`: dispatch on the auth type
(`configureHttpsAuth` / `configureSshAuth` / `configureTokenAuth`); each
branch throws a `GitOperationException(INVALID_CREDENTIALS, ...)` when the
required field is JavaScript-falsy; the surrounding catch re-wraps EVERY
error into `GitOperationException(AUTHENTICATION_FAILED,
'Git认证配置失败: ' + message)`.  The `git.init`/`addConfig` calls of the
HTTPS branch swallow their own failures and have no observable effect here.
Returns the wrapped error or the trace of the SSH key write. -/
def configureGit (cred : DecryptedCredential) (env : GitEnv) :
    Except GitOpError Unit × List GitAction :=
  match cred.authType with
  | GitAuthType.HTTPS =>
    match jsStr cred.decryptedPassword, jsStr cred.username with
    | some _, some _ => (.ok (), [])
    | _, _ =>
      (.error ⟨GitErrType.authenticationFailed,
        "Git认证配置失败: " ++ "HTTPS认证需要用户名和密码"⟩, [])
  | GitAuthType.SSH =>
    match jsStr cred.decryptedSshKey with
    | some _ =>
      match env.sshWrite with
      | none => (.ok (), [GitAction.writeSshKey])
      | some msg =>
        (.error ⟨GitErrType.authenticationFailed, "Git认证配置失败: " ++ msg⟩,
          [GitAction.writeSshKey])
    | none =>
      (.error ⟨GitErrType.authenticationFailed,
        "Git认证配置失败: " ++ "SSH认证需要私钥"⟩, [])
  | GitAuthType.TOKEN =>
    match jsStr cred.decryptedToken with
    | some _ => (.ok (), [])
    | none =>
      (.error ⟨GitErrType.authenticationFailed,
        "Git认证配置失败: " ++ "Token认证需要访问令牌"⟩, [])

/-- The ref parsing of `fetchRemoteBranches`: split the `listRemote` output
into lines, keep non-blank ones, split each at TAB into `[sha, ref]`, and
keep refs under `refs/heads/`, stripping that prefix. -/
def parseRemoteRefs (refsText : String) (now : Nat) : List RepositoryBranch :=
  ((splitCharList '\n' refsText.data).filter
      (fun l => trimChars l ≠ [])).filterMap
    (fun line =>
      match splitCharList '\t' line with
      | sha :: ref :: _ =>
        if charsStartWith ref "refs/heads/".data then
          some ⟨String.mk (stripFirstChars ref "refs/heads/".data),
            String.mk sha, now⟩
        else none
      | _ => none)

/-- `fetchRemoteBranches` + `getDefaultBranch`, given a configured git
client: add the remote, list remote heads (an empty/falsy result throws
`REPOSITORY_NOT_FOUND`), parse the branch list, then resolve
`refs/remotes/origin/HEAD` (any failure there falls back to `main`). -/
def fetchPhase (env : GitEnv) :
    Except GitOpError (List RepositoryBranch × String) × List GitAction :=
  match env.addRemote with
  | some msg => (.error (classifyFetchError msg), [GitAction.addRemote])
  | none =>
    match env.listRemote with
    | .error msg =>
      (.error (classifyFetchError msg), [GitAction.addRemote, GitAction.listRemote])
    | .ok refsText =>
      if refsText = "" then
        (.error ⟨GitErrType.repositoryNotFound,
          "无法获取远程分支信息，请检查仓库URL和访问权限"⟩,
          [GitAction.addRemote, GitAction.listRemote])
      else
        let defaultBranch :=
          match env.symbolicRef with
          | .error _ => "main"
          | .ok s =>
            let db := stripFirstChars (trimChars s.data)
              "refs/remotes/origin/".data
            if db = [] then "main" else String.mk db
        (.ok (parseRemoteRefs refsText env.now, defaultBranch),
          [GitAction.addRemote, GitAction.listRemote, GitAction.symbolicRef])

/-- The body of `GitOperationService.getRepositoryBranches` up to its outer
catch: validate the URL, resolve and validate the credential, create the
temporary work directory, then configure auth and fetch, with the `finally`
cleanup of the work directory on every path that created it. -/
def getRepositoryBranchesCore (env : GitEnv) (url : String) :
    Except GitThrown (List RepositoryBranch × String) × List GitAction :=
  if ¬ validRepoUrl url then
    (.error (.gitOp ⟨GitErrType.invalidUrl, "无效的Git仓库URL格式"⟩),
      [GitAction.validateUrl])
  else
    match env.credResult with
    | .error msg =>
      (.error (.plain msg), [GitAction.validateUrl, GitAction.getCredential])
    | .ok cred =>
      if ¬ env.validationOk then
        (.error (.gitOp ⟨GitErrType.invalidCredentials,
            "凭证验证失败: " ++ env.validationErr⟩),
          [GitAction.validateUrl, GitAction.getCredential,
            GitAction.validateCredential])
      else
        match env.mkdir with
        | some msg =>
          (.error (.plain msg),
            [GitAction.validateUrl, GitAction.getCredential,
              GitAction.validateCredential])
        | none =>
          let inner : Except GitThrown (List RepositoryBranch × String) ×
              List GitAction :=
            match configureGit cred env with
            | (.error e, atr) =>
              (.error (.gitOp e), GitAction.configureAuth :: atr)
            | (.ok _, atr) =>
              match fetchPhase env with
              | (.error e, ftr) =>
                (.error (.gitOp e), GitAction.configureAuth :: atr ++ ftr)
              | (.ok res, ftr) =>
                (.ok res, GitAction.configureAuth :: atr ++ ftr)
          (inner.1,
            [GitAction.validateUrl, GitAction.getCredential,
              GitAction.validateCredential, GitAction.workDirCreated] ++
              inner.2 ++ [GitAction.workDirRemoved])

/-- The message of a thrown error as the outer catch reports it: the
exception's own message for a `GitOperationException`, `'未知错误: ' + message`
otherwise. -/
def gitThrownMessage : GitThrown → String
  | .gitOp e => e.message
  | .plain m => "未知错误: " ++ m

/-- `GitOperationService.getRepositoryBranches`: the outer try/catch turns
every thrown error into `{success: false, branches: [], defaultBranch: '',
error}` — the function never rejects to its caller. -/
def getRepositoryBranches (env : GitEnv) (url : String) :
    BranchesResponse × List GitAction :=
  match getRepositoryBranchesCore env url with
  | (.ok res, tr) => (⟨true, res.1, res.2, none⟩, tr)
  | (.error e, tr) => (⟨false, [], "", some (gitThrownMessage e)⟩, tr)

/-- The classification of the error a core run threw, when it threw a
`GitOperationException`. -/
def coreErrorType (r : Except GitThrown (List RepositoryBranch × String)) :
    Option GitErrType :=
  match r with
  | .error (.gitOp e) => some e.type
  | _ => none

/-- Any core run that created the temporary work directory also removes it
(the `finally` block). -/
theorem core_cleanup (env : GitEnv) (url : String) :
    GitAction.workDirCreated ∈ (getRepositoryBranchesCore env url).2 →
    GitAction.workDirRemoved ∈ (getRepositoryBranchesCore env url).2 := by
  unfold getRepositoryBranchesCore
  by_cases hu : ¬ validRepoUrl url
  · rw [if_pos hu]
    intro h
    simp at h
  · rw [if_neg hu]
    cases hcr : env.credResult with
    | error msg =>
      intro h
      simp at h
    | ok cred =>
      simp only []
      by_cases hv : ¬ env.validationOk
      · rw [if_pos hv]
        intro h
        simp at h
      · rw [if_neg hv]
        cases hmk : env.mkdir with
        | some msg =>
          intro h
          simp at h
        | none =>
          simp only []
          intro _
          simp

/-- C10: `getRepositoryBranches` never throws to its caller — for every
combination of collaborator outcomes it returns a response object, on every
failure with `success: false`, `branches: []`, `defaultBranch: ''` and an
error message, on success without one; and whenever the temporary work
directory was created for the run, the cleanup step removed it, on the
success and the failure path alike. -/
theorem c10_branches_total (env : GitEnv) (url : String) :
    ((getRepositoryBranches env url).1.success = false →
      (getRepositoryBranches env url).1.branches = [] ∧
      (getRepositoryBranches env url).1.defaultBranch = "" ∧
      (getRepositoryBranches env url).1.error.isSome = true) ∧
    ((getRepositoryBranches env url).1.success = true →
      (getRepositoryBranches env url).1.error = none) ∧
    (GitAction.workDirCreated ∈ (getRepositoryBranches env url).2 →
      GitAction.workDirRemoved ∈ (getRepositoryBranches env url).2) := by
  have hclean := core_cleanup env url
  unfold getRepositoryBranches
  cases hc : getRepositoryBranchesCore env url with
  | mk r tr =>
    rw [hc] at hclean
    cases r with
    | ok res =>
      refine ⟨?_, ?_, ?_⟩
      · intro h
        simp at h
      · intro h
        rfl
      · exact hclean
    | error e =>
      refine ⟨?_, ?_, ?_⟩
      · intro h
        exact ⟨rfl, rfl, rfl⟩
      · intro h
        simp at h
      · exact hclean

/-- C8 (amended): resolving and using an HTTPS credential whose password or
username is JavaScript-falsy fails before any network step — neither
`addRemote` nor `listRemote` is reached — but the error that escapes is
classified `AUTHENTICATION_FAILED`, not `INVALID_CREDENTIALS`: the
`INVALID_CREDENTIALS` exception thrown by `configureHttpsAuth` is caught by
`configureGitWithCredentials`' catch-all and re-wrapped as
`AUTHENTICATION_FAILED` with message
`'Git认证配置失败: HTTPS认证需要用户名和密码'`. -/
theorem c8_amended_https_empty (env : GitEnv) (url : String)
    (cred : DecryptedCredential)
    (hcred : env.credResult = .ok cred)
    (hhttps : cred.authType = GitAuthType.HTTPS)
    (hempty : jsStr cred.decryptedPassword = none ∨ jsStr cred.username = none)
    (hurl : validRepoUrl url = true)
    (hval : env.validationOk = true)
    (hmk : env.mkdir = none) :
    getRepositoryBranchesCore env url =
      (.error (.gitOp ⟨GitErrType.authenticationFailed,
          "Git认证配置失败: " ++ "HTTPS认证需要用户名和密码"⟩),
        [GitAction.validateUrl, GitAction.getCredential,
          GitAction.validateCredential, GitAction.workDirCreated,
          GitAction.configureAuth, GitAction.workDirRemoved]) ∧
    GitAction.addRemote ∉ (getRepositoryBranchesCore env url).2 ∧
    GitAction.listRemote ∉ (getRepositoryBranchesCore env url).2 := by
  have hcfg : configureGit cred env =
      (.error ⟨GitErrType.authenticationFailed,
        "Git认证配置失败: " ++ "HTTPS认证需要用户名和密码"⟩, []) := by
    unfold configureGit
    rw [hhttps]
    simp only []
    rcases hempty with he | he
    · rw [he]
    · cases hp : jsStr cred.decryptedPassword with
      | none => rfl
      | some p => rw [he]
  have hmain : getRepositoryBranchesCore env url =
      (.error (.gitOp ⟨GitErrType.authenticationFailed,
          "Git认证配置失败: " ++ "HTTPS认证需要用户名和密码"⟩),
        [GitAction.validateUrl, GitAction.getCredential,
          GitAction.validateCredential, GitAction.workDirCreated,
          GitAction.configureAuth, GitAction.workDirRemoved]) := by
    unfold getRepositoryBranchesCore
    rw [if_neg (by simp [hurl])]
    rw [hcred]
    simp only []
    rw [if_neg (by simp [hval])]
    rw [hmk]
    simp only []
    rw [hcfg]
    rfl
  refine ⟨hmain, ?_, ?_⟩ <;> rw [hmain] <;> decide

/-- Concrete HTTPS credential with an empty decrypted password, for the C8
counterexample and witness. -/
def c8Env : GitEnv :=
  ⟨.ok ⟨GitAuthType.HTTPS, some "user", some "", none, none⟩, true, "", none,
    none, none, .ok "refs", .ok "main", 0⟩

/-- C8 counterexample: for the concrete HTTPS credential with an empty
password, the error that escapes `getRepositoryBranches`' inner pipeline is
classified `AUTHENTICATION_FAILED` — not `INVALID_CREDENTIALS` as the claim
states — although, as the claim states, neither the remote add nor the remote
listing was attempted. -/
theorem c8_classified_authentication_failed :
    coreErrorType
        (getRepositoryBranchesCore c8Env "https://github.com/a/b.git").1 =
      some GitErrType.authenticationFailed ∧
    coreErrorType
        (getRepositoryBranchesCore c8Env "https://github.com/a/b.git").1 ≠
      some GitErrType.invalidCredentials ∧
    GitAction.addRemote ∉
      (getRepositoryBranchesCore c8Env "https://github.com/a/b.git").2 ∧
    GitAction.listRemote ∉
      (getRepositoryBranchesCore c8Env "https://github.com/a/b.git").2 ∧
    (getRepositoryBranches c8Env "https://github.com/a/b.git").1.error =
      some "Git认证配置失败: HTTPS认证需要用户名和密码" :=
  ⟨rfl, by decide, by decide, by decide, rfl⟩

/-- Witness for the amended C8 at the concrete credential. -/
theorem c8_amended_https_empty_witness :
    c8Env.credResult = .ok ⟨GitAuthType.HTTPS, some "user", some "", none, none⟩ ∧
    (⟨GitAuthType.HTTPS, some "user", some "", none, none⟩ :
        DecryptedCredential).authType = GitAuthType.HTTPS ∧
    (jsStr (⟨GitAuthType.HTTPS, some "user", some "", none, none⟩ :
        DecryptedCredential).decryptedPassword = none ∨
      jsStr (⟨GitAuthType.HTTPS, some "user", some "", none, none⟩ :
        DecryptedCredential).username = none) ∧
    validRepoUrl "https://github.com/a/b.git" = true ∧
    c8Env.validationOk = true ∧
    c8Env.mkdir = none ∧
    (getRepositoryBranchesCore c8Env "https://github.com/a/b.git" =
      (.error (.gitOp ⟨GitErrType.authenticationFailed,
          "Git认证配置失败: " ++ "HTTPS认证需要用户名和密码"⟩),
        [GitAction.validateUrl, GitAction.getCredential,
          GitAction.validateCredential, GitAction.workDirCreated,
          GitAction.configureAuth, GitAction.workDirRemoved]) ∧
      GitAction.addRemote ∉
        (getRepositoryBranchesCore c8Env "https://github.com/a/b.git").2 ∧
      GitAction.listRemote ∉
        (getRepositoryBranchesCore c8Env "https://github.com/a/b.git").2) :=
  ⟨rfl, rfl, Or.inl rfl, by decide, rfl, rfl,
   c8_amended_https_empty c8Env "https://github.com/a/b.git"
     ⟨GitAuthType.HTTPS, some "user", some "", none, none⟩
     rfl rfl (Or.inl rfl) (by decide) rfl rfl⟩

end Avocado
